import Mathlib

/-!
Unit-test harness (`src/util-unittest.c`).

A shallow embedding of the unit-test registration and execution harness:
`UtAllocTest`, `UtAppendTest`, `UtRegisterTest`, `UtRegex`, `UtListTests`,
`UtRunTests`, `UtInitialize`, `UtCleanup`, `UtSelftestTrue`,
`UtSelftestFalse` and `UtRunSelftest`.

Modelling conventions.

* The singly linked list `ut_list` is a `List` of descriptors, head first.
* A C string is a `String`, one `Char` per C `char`; a `char *` that may be
  `NULL` is an `Option String`.
* A test body `int (*TestFn)(void)` may read and write the hosting program's
  own data.  That data is an arbitrary type `σ`, and a body is a function
  `σ → Int × σ`.  A body does not touch the harness's statics or its output.
* `uint32_t` counters are `Nat` values reduced modulo `2 ^ 32`.
* The PCRE library is not part of the file; its three entry points used here
  are the fields of `PcreLib`, and every theorem holds for every such library.
* Text written with `printf` is appended to the `stdout` field.
-/

namespace UtUnittest

/-- The part of the PCRE interface the harness calls.  `pcre_compile` either
yields a compiled pattern or the pair `(eb, eo)` of error text and error offset;
`pcre_study` yields the study data (possibly `NULL`) and the value it leaves in
`eb`; `pcre_exec` takes the compiled pattern, the study data, the subject, its
length, the start offset, the options and the size of the offset vector, and
yields its return code together with the offsets it wrote. -/
structure PcreLib where
  pcre : Type
  pcre_extra : Type
  pcre_compile : String → Int → Except (String × Int) pcre
  pcre_study : pcre → Int → Option pcre_extra × Option String
  pcre_exec : Option pcre → Option pcre_extra → String → Nat → Nat → Int → Nat → Int × List Nat

/-- One registered test: `struct UtTest` without its `next` link. -/
structure UtTest (σ : Type) where
  name : String
  TestFn : σ → Int × σ
  evalue : Int

/-- The statics of the file (`parse_regex`, `parse_regex_study`, `ut_list`),
the text written so far, and the hosting program's data. -/
structure UtState (E : PcreLib) (σ : Type) where
  parse_regex : Option E.pcre
  parse_regex_study : Option E.pcre_extra
  ut_list : List (UtTest σ)
  stdout : String
  world : σ

variable {E : PcreLib} {σ : Type}

/-- Appends text to the output, as `printf` does. -/
def UtState.printf (st : UtState E σ) (s : String) : UtState E σ :=
  { st with stdout := st.stdout ++ s }

/-- The constant `MAX_SUBSTRINGS`. -/
def MAX_SUBSTRINGS : Nat := 30

/-- The number of values of a `uint32_t`. -/
def UINT32_MOD : Nat := 4294967296

/-- The effect of `++` on a `uint32_t`. -/
def u32incr (n : Nat) : Nat := (n + 1) % UINT32_MOD

/-- The conversion `%-60.60s`: at most 60 characters of the argument,
left-justified in a field of at least 60. -/
def fmt60 (s : String) : String :=
  let t := s.data.take 60
  String.mk (t ++ List.replicate (60 - t.length) ' ')

/-- `UtAllocTest`: `malloc_ok` tells whether `malloc` succeeded.  On failure a
diagnostic is printed and `NULL` returned; on success the block is zeroed,
and the caller fills every field. -/
def UtAllocTest (malloc_ok : Bool) (st : UtState E σ) : Bool × UtState E σ :=
  if malloc_ok then (true, st)
  else (false, st.printf "ERROR: UtTest *ut = malloc(sizeof(UtTest)); failed\n")

/-- `UtAppendTest`: an empty list becomes the test alone; otherwise the
links are followed to the last element and the test is hung behind it. -/
def UtAppendTest : List (UtTest σ) → UtTest σ → List (UtTest σ)
  | [], test => [test]
  | tmp :: next, test => tmp :: UtAppendTest next test

/-- `UtRegisterTest`. -/
def UtRegisterTest (malloc_ok : Bool) (name : String) (TestFn : σ → Int × σ) (evalue : Int)
    (st : UtState E σ) : UtState E σ :=
  match UtAllocTest malloc_ok st with
  | (false, st1) => st1
  | (true, st1) =>
    { st1 with ut_list := UtAppendTest st1.ut_list { name := name, TestFn := TestFn, evalue := evalue } }

/-- `UtRegex`: returns `-1` for a `NULL` argument, without touching the
pattern statics; otherwise stores the result of `pcre_compile` in
`parse_regex` and, when that is not `NULL`, the result of `pcre_study` in
`parse_regex_study`; returns `1` when both calls succeed and `-1` after
printing a diagnostic when either fails. -/
def UtRegex (E : PcreLib) (regex_arg : Option String) (st : UtState E σ) : Int × UtState E σ :=
  let opts : Int := 0
  match regex_arg with
  | none => (-1, st)
  | some arg =>
    match E.pcre_compile arg opts with
    | .error (eb, eo) =>
      (-1, ({ st with parse_regex := none } : UtState E σ).printf
        ("pcre compile of \"" ++ arg ++ "\" failed at offset " ++ toString eo ++ ": " ++ eb ++ "\n"))
    | .ok re =>
      let st1 : UtState E σ := { st with parse_regex := some re }
      let r := E.pcre_study re 0
      let st2 : UtState E σ := { st1 with parse_regex_study := r.1 }
      match r.2 with
      | some eb => (-1, st2.printf ("pcre study failed: " ++ eb ++ "\n"))
      | none => (1, st2)

/-- The loop of `UtListTests` from descriptor `ut` onwards. -/
def UtListTests.loop (rcomp : Int) : List (UtTest σ) → UtState E σ → UtState E σ
  | [], st => st
  | ut :: next, st =>
    if rcomp = 1 then
      let ret := (E.pcre_exec st.parse_regex st.parse_regex_study ut.name ut.name.length 0 0
        MAX_SUBSTRINGS).1
      if ret ≥ 1 then
        UtListTests.loop rcomp next (st.printf (ut.name ++ "\n"))
      else
        UtListTests.loop rcomp next st
    else
      UtListTests.loop rcomp next (st.printf (ut.name ++ "\n"))

/-- `UtListTests`. -/
def UtListTests (E : PcreLib) (regex_arg : Option String) (st : UtState E σ) : UtState E σ :=
  let r := UtRegex E regex_arg st
  UtListTests.loop r.1 r.2.ut_list r.2

/-- The values `UtRunTests` holds between two loop iterations. -/
structure RunLocals (E : PcreLib) (σ : Type) where
  good : Nat
  bad : Nat
  st : UtState E σ

/-- The block of `UtRunTests` that runs one test; the source has it twice,
word for word, once behind the pattern match and once in the `else` branch:
print the name, call the body, print the verdict, bump one counter. -/
def UtRunTests.exec (ut : UtTest σ) (s : RunLocals E σ) : RunLocals E σ :=
  let st1 := s.st.printf ("Test " ++ fmt60 ut.name ++ " : ")
  let r := ut.TestFn st1.world
  let ret := r.1
  let st2 : UtState E σ := { st1 with world := r.2 }
  let st3 := st2.printf ((if ret = ut.evalue then "pass" else "FAILED") ++ "\n")
  if ret ≠ ut.evalue then
    { good := s.good, bad := u32incr s.bad, st := st3 }
  else
    { good := u32incr s.good, bad := s.bad, st := st3 }

/-- The loop of `UtRunTests` from descriptor `ut` onwards. -/
def UtRunTests.loop (rcomp : Int) : List (UtTest σ) → RunLocals E σ → RunLocals E σ
  | [], s => s
  | ut :: next, s =>
    if rcomp = 1 then
      let ret := (E.pcre_exec s.st.parse_regex s.st.parse_regex_study ut.name ut.name.length 0 0
        MAX_SUBSTRINGS).1
      if ret ≥ 1 then
        UtRunTests.loop rcomp next (UtRunTests.exec ut s)
      else
        UtRunTests.loop rcomp next s
    else
      UtRunTests.loop rcomp next (UtRunTests.exec ut s)

/-- The state of `UtRunTests` when its loop ends, before the summary. -/
def UtRunTests.run (E : PcreLib) (regex_arg : Option String) (st : UtState E σ) : RunLocals E σ :=
  let r := UtRegex E regex_arg st
  UtRunTests.loop r.1 r.2.ut_list { good := 0, bad := 0, st := r.2 }

/-- The four summary lines of `UtRunTests`. -/
def UtRunTests.summary (good bad : Nat) : String :=
  "==== TEST RESULTS ====\n" ++ ("PASSED: " ++ toString good ++ "\n") ++
    ("FAILED: " ++ toString bad ++ "\n") ++ "======================\n"

/-- `UtRunTests`: the returned `uint32_t` and the state left behind. -/
def UtRunTests (E : PcreLib) (regex_arg : Option String) (st : UtState E σ) : Nat × UtState E σ :=
  let s := UtRunTests.run E regex_arg st
  (s.bad, s.st.printf (UtRunTests.summary s.good s.bad))

/-- `UtInitialize`. -/
def UtInitialize (st : UtState E σ) : UtState E σ :=
  { st with ut_list := [] }

/-- The `while` loop of `UtCleanup`: frees `tmp` and moves to its
successor until the end of the list; what is left to visit is returned. -/
def UtCleanup.loop : List (UtTest σ) → List (UtTest σ)
  | [] => []
  | _ :: otmp => UtCleanup.loop otmp

/-- `UtCleanup`. -/
def UtCleanup (st : UtState E σ) : UtState E σ :=
  let _tmp := UtCleanup.loop st.ut_list
  { st with ut_list := [] }

/-- `UtSelftestTrue`. -/
def UtSelftestTrue (w : σ) : Int × σ :=
  if true then (1, w) else (0, w)

/-- `UtSelftestFalse`. -/
def UtSelftestFalse (w : σ) : Int × σ :=
  if false then (1, w) else (0, w)

/-- `UtRunSelftest`; `UNITTESTS` tells whether the macro of that name is
defined, `malloc_ok1` and `malloc_ok2` whether the allocation succeeds in the
first and in the second registration.  The `uint32_t` returned by `UtRunTests`
is converted to `int`. -/
def UtRunSelftest (UNITTESTS : Bool) (malloc_ok1 malloc_ok2 : Bool) (E : PcreLib)
    (regex_arg : Option String) (st : UtState E σ) : Int × UtState E σ :=
  if UNITTESTS then
    let st1 := st.printf "* Running Unittesting subsystem selftests...\n"
    let st2 := UtInitialize st1
    let st3 := UtRegisterTest malloc_ok1 "true" UtSelftestTrue 1 st2
    let st4 := UtRegisterTest malloc_ok2 "false" UtSelftestFalse 0 st3
    let r := UtRunTests E regex_arg st4
    let ret : Int := if r.1 < 2147483648 then (r.1 : Int) else (r.1 : Int) - 4294967296
    let st5 :=
      if ret = 0 then r.2.printf "* Done running Unittesting subsystem selftests...\n"
      else r.2.printf "* ERROR running Unittesting subsystem selftests failed...\n"
    (0, UtCleanup st5)
  else
    (0, st)

/-! ### A reference engine

A small matcher with the behaviour of PCRE on the patterns made of literal
characters and of a literal character followed by `*`.  It rejects every
other pattern.  The general theorems hold for every `PcreLib`; this engine
supplies the concrete instances. -/

/-- A pattern element: a literal character, or a starred one. -/
inductive RefItem where
  | lit (c : Char)
  | star (c : Char)
  deriving DecidableEq, Repr

/-- The metacharacters the reference engine does not handle. -/
def refMeta : List Char := ['\\', '^', '$', '.', '[', '|', '(', ')', '?', '+', '{']

/-- Parsing a pattern from offset `off`; a `*` with nothing before it is
the PCRE error "nothing to repeat". -/
def refParse : List Char → Nat → Except (String × Int) (List RefItem)
  | [], _ => .ok []
  | c :: rest, off =>
    if c = '*' then .error ("nothing to repeat", (off : Int))
    else if c ∈ refMeta then .error ("pattern outside the reference fragment", (off : Int))
    else
      match rest with
      | [] => .ok [RefItem.lit c]
      | d :: rest2 =>
        if d = '*' then
          match refParse rest2 (off + 2) with
          | .ok is => .ok (RefItem.star c :: is)
          | .error e => .error e
        else
          match refParse (d :: rest2) (off + 1) with
          | .ok is => .ok (RefItem.lit c :: is)
          | .error e => .error e

/-- Greedy repetition of `c`, then the continuation `k`; on failure of the
continuation one repetition is given back.  The result is the number of
characters matched. -/
def refStar (k : List Char → Option Nat) (c : Char) : List Char → Option Nat
  | [] => k []
  | x :: xs =>
    if x = c then
      match refStar k c xs with
      | some n => some (n + 1)
      | none => k (x :: xs)
    else k (x :: xs)

/-- Matching a pattern at the start of the subject. -/
def refMatchHere : List RefItem → List Char → Option Nat
  | [], _ => some 0
  | RefItem.lit c :: is, s =>
    match s with
    | [] => none
    | x :: xs => if x = c then (refMatchHere is xs).map (fun n => n + 1) else none
  | RefItem.star c :: is, s => refStar (refMatchHere is) c s

/-- Unanchored search: the first offset at which the pattern matches,
with the end offset of the match. -/
def refSearch (items : List RefItem) : List Char → Nat → Option (Nat × Nat)
  | [], off => (refMatchHere items []).map (fun n => (off, off + n))
  | x :: xs, off =>
    match refMatchHere items (x :: xs) with
    | some n => some (off, off + n)
    | none => refSearch items xs (off + 1)

/-- Repetition of `c` for acceptance: the continuation accepts what is
left, or one more `c` is taken. -/
def refStarAccepts (k : List Char → Bool) (c : Char) : List Char → Bool
  | [] => k []
  | x :: xs => k (x :: xs) || (decide (x = c) && refStarAccepts k c xs)

/-- Acceptance: the whole of the text satisfies the pattern. -/
def refAccepts : List RefItem → List Char → Bool
  | [], s => s.isEmpty
  | RefItem.lit c :: is, s =>
    match s with
    | [] => false
    | x :: xs => decide (x = c) && refAccepts is xs
  | RefItem.star c :: is, s => refStarAccepts (refAccepts is) c s

/-- The reference `pcre_exec`: `PCRE_ERROR_NULL` (-2) without a compiled
pattern, `PCRE_ERROR_NOMATCH` (-1) when the search fails, and `1` with the
start and end offsets of the match otherwise. -/
def refExec (code : Option (List RefItem)) (_extra : Option Unit) (subject : String)
    (length startoffset : Nat) (_options : Int) (_ovecsize : Nat) : Int × List Nat :=
  match code with
  | none => (-2, [])
  | some items =>
    match refSearch items ((subject.data.take length).drop startoffset) startoffset with
    | some (a, b) => (1, [a, b])
    | none => (-1, [])

/-- The reference engine; its `pcre_study` has nothing to add and reports
no error. -/
def refPcre : PcreLib where
  pcre := List RefItem
  pcre_extra := Unit
  pcre_compile := fun pattern _ => refParse pattern.data 0
  pcre_study := fun _ _ => (none, none)
  pcre_exec := refExec

/-- The statics of a freshly started program: no pattern, no test, no
output. -/
def UtState.init (E : PcreLib) (w : σ) : UtState E σ :=
  { parse_regex := none, parse_regex_study := none, ut_list := [], stdout := "", world := w }

/-! ### Reference semantics of a run

What a run is expected to amount to, written without the loop: the bodies
of a list of tests called one after the other, the verdict of each, the text
of each result line, and the two tallies. -/

/-- The condition under which the loops of `UtListTests` and `UtRunTests`
take a descriptor: either the pattern did not compile (`rcomp` is not `1`),
or `pcre_exec` on the name returned at least `1`. -/
def selects (E : PcreLib) (rcomp : Int) (re : Option E.pcre) (extra : Option E.pcre_extra)
    (ut : UtTest σ) : Bool :=
  decide (rcomp = 1 → 1 ≤ (E.pcre_exec re extra ut.name ut.name.length 0 0 MAX_SUBSTRINGS).1)

/-- The descriptors a call with filter `regex_arg` takes, in registry order. -/
def selection (E : PcreLib) (regex_arg : Option String) (st : UtState E σ) : List (UtTest σ) :=
  let r := UtRegex E regex_arg st
  st.ut_list.filter (selects E r.1 r.2.parse_regex r.2.parse_regex_study)

/-- The tests of a list called in order from `w`, each paired with the
value its body returned. -/
def callAll : List (UtTest σ) → σ → List (UtTest σ × Int)
  | [], _ => []
  | ut :: rest, w => (ut, (ut.TestFn w).1) :: callAll rest (ut.TestFn w).2

/-- The hosting program's data after the tests of a list were called in
order from `w`. -/
def worldAfter : List (UtTest σ) → σ → σ
  | [], w => w
  | ut :: rest, w => worldAfter rest (ut.TestFn w).2

/-- A test passes when its body returned the expected value. -/
def passes (o : UtTest σ × Int) : Bool := decide (o.2 = o.1.evalue)

/-- The result line of one executed test. -/
def resultLine (o : UtTest σ × Int) : String :=
  "Test " ++ fmt60 o.1.name ++ " : " ++ (if o.2 = o.1.evalue then "pass" else "FAILED") ++ "\n"

/-- The result lines of a list of executed tests. -/
def resultLines : List (UtTest σ × Int) → String
  | [] => ""
  | o :: rest => resultLine o ++ resultLines rest

/-- The number of executed tests that passed. -/
def passCount (os : List (UtTest σ × Int)) : Nat := (os.filter passes).length

/-- The number of executed tests that did not pass. -/
def failCount (os : List (UtTest σ × Int)) : Nat := (os.filter (fun o => !passes o)).length

/-- The names of a list of tests, one per line. -/
def nameLines : List (UtTest σ) → String
  | [] => ""
  | ut :: rest => (ut.name ++ "\n") ++ nameLines rest

/-- A test body that returns `v` and records its call by appending `tag`
to the hosting program's data, here a list of strings. -/
def fn_returns (tag : String) (v : Int) (w : List String) : Int × List String :=
  (v, w ++ [tag])

/-- The descriptor `("alpha", fn_returns_1, 1)`. -/
def alpha : UtTest (List String) := { name := "alpha", TestFn := fn_returns "alpha" 1, evalue := 1 }

/-- The descriptor `("beta", fn_returns_0, 1)`. -/
def beta : UtTest (List String) := { name := "beta", TestFn := fn_returns "beta" 0, evalue := 1 }

/-- The descriptor `("gamma", fn_returns_5, 5)`. -/
def gamma : UtTest (List String) := { name := "gamma", TestFn := fn_returns "gamma" 5, evalue := 5 }

/-- The text `UtRegex` writes for a filter: nothing for an absent filter or
one that compiles, the diagnostic of `pcre_compile` or of `pcre_study`
otherwise. -/
def UtRegex.diagnostic (E : PcreLib) (regex_arg : Option String) : String :=
  match regex_arg with
  | none => ""
  | some arg =>
    match E.pcre_compile arg 0 with
    | .error (eb, eo) =>
      "pcre compile of \"" ++ arg ++ "\" failed at offset " ++ toString eo ++ ": " ++ eb ++ "\n"
    | .ok re =>
      match (E.pcre_study re 0).2 with
      | some eb => "pcre study failed: " ++ eb ++ "\n"
      | none => ""

/-- One call of `pcre_exec`: the compiled pattern and the study data it was
given, read from the statics at that moment, and the subject. -/
structure ExecCall (E : PcreLib) where
  code : Option E.pcre
  extra : Option E.pcre_extra
  subject : String

/-- Equality of two recorded calls of `pcre_exec` is decidable when equality
of compiled patterns and of study data is. -/
instance ExecCall.decEq (E : PcreLib) [DecidableEq E.pcre] [DecidableEq E.pcre_extra] :
    DecidableEq (ExecCall E) := fun a b =>
  decidable_of_iff (a.code = b.code ∧ a.extra = b.extra ∧ a.subject = b.subject)
    (by cases a; cases b; simp)

/-- Equality of compiled patterns of the reference engine is decidable. -/
instance refPcre.decEqPcre : DecidableEq refPcre.pcre :=
  inferInstanceAs (DecidableEq (List RefItem))

/-- Equality of study data of the reference engine is decidable. -/
instance refPcre.decEqExtra : DecidableEq refPcre.pcre_extra :=
  inferInstanceAs (DecidableEq Unit)

/-- The calls of `pcre_exec` made by the loop of `UtListTests`, in order;
the loop is followed step by step. -/
def UtListTests.execCalls (rcomp : Int) : List (UtTest σ) → UtState E σ → List (ExecCall E)
  | [], _ => []
  | ut :: next, st =>
    if rcomp = 1 then
      let ret := (E.pcre_exec st.parse_regex st.parse_regex_study ut.name ut.name.length 0 0
        MAX_SUBSTRINGS).1
      { code := st.parse_regex, extra := st.parse_regex_study, subject := ut.name } ::
        (if ret ≥ 1 then
          UtListTests.execCalls rcomp next (st.printf (ut.name ++ "\n"))
        else
          UtListTests.execCalls rcomp next st)
    else
      UtListTests.execCalls rcomp next (st.printf (ut.name ++ "\n"))

/-- The calls of `pcre_exec` made by the loop of `UtRunTests`, in order;
the loop is followed step by step. -/
def UtRunTests.execCalls (rcomp : Int) : List (UtTest σ) → RunLocals E σ → List (ExecCall E)
  | [], _ => []
  | ut :: next, s =>
    if rcomp = 1 then
      let ret := (E.pcre_exec s.st.parse_regex s.st.parse_regex_study ut.name ut.name.length 0 0
        MAX_SUBSTRINGS).1
      { code := s.st.parse_regex, extra := s.st.parse_regex_study, subject := ut.name } ::
        (if ret ≥ 1 then
          UtRunTests.execCalls rcomp next (UtRunTests.exec ut s)
        else
          UtRunTests.execCalls rcomp next s)
    else
      UtRunTests.execCalls rcomp next (UtRunTests.exec ut s)

/-- A call of one of the two entry points that use the pattern statics. -/
inductive UtCall where
  | list (regex_arg : Option String)
  | run (regex_arg : Option String)
  deriving DecidableEq, Repr

/-- The filter argument of a call. -/
def UtCall.regex_arg : UtCall → Option String
  | UtCall.list regex_arg => regex_arg
  | UtCall.run regex_arg => regex_arg

/-- The state a call leaves behind. -/
def UtCall.perform (E : PcreLib) : UtCall → UtState E σ → UtState E σ
  | UtCall.list regex_arg, st => UtListTests E regex_arg st
  | UtCall.run regex_arg, st => (UtRunTests E regex_arg st).2

/-- The calls of `pcre_exec` made during a call. -/
def UtCall.execCalls (E : PcreLib) : UtCall → UtState E σ → List (ExecCall E)
  | UtCall.list regex_arg, st =>
    let r := UtRegex E regex_arg st
    UtListTests.execCalls r.1 r.2.ut_list r.2
  | UtCall.run regex_arg, st =>
    let r := UtRegex E regex_arg st
    UtRunTests.execCalls r.1 r.2.ut_list { good := 0, bad := 0, st := r.2 }

/-- The calls of `pcre_exec` made during a sequence of calls, each paired
with the call during which it was made. -/
def sessionExecCalls (E : PcreLib) : List UtCall → UtState E σ → List (UtCall × ExecCall E)
  | [], _ => []
  | c :: cs, st =>
    (c.execCalls E st).map (fun p => (c, p)) ++ sessionExecCalls E cs (c.perform E st)

/-- A sequence of successful registrations, one per descriptor. -/
def registerAll (regs : List (UtTest σ)) (st : UtState E σ) : UtState E σ :=
  regs.foldl (fun acc t => UtRegisterTest true t.name t.TestFn t.evalue acc) st

/-- The scenario registry: `alpha`, `beta`, `gamma` registered in that
order in a freshly started program, run with the reference engine. -/
def scenario : UtState refPcre (List String) :=
  registerAll [alpha, beta, gamma] (UtState.init refPcre [])

end UtUnittest

/-! ## Properties -/

namespace UtUnittest

variable {E : PcreLib} {σ : Type}

/-! ### Registration -/

theorem UtAppendTest_eq_append (l : List (UtTest σ)) (t : UtTest σ) :
    UtAppendTest l t = l ++ [t] := by
  induction l with
  | nil => rfl
  | cons a l ih => simp [UtAppendTest, ih]

theorem UtRegisterTest_success (name : String) (fn : σ → Int × σ) (ev : Int) (st : UtState E σ) :
    UtRegisterTest true name fn ev st
      = { st with ut_list := st.ut_list ++ [{ name := name, TestFn := fn, evalue := ev }] } := by
  simp [UtRegisterTest, UtAllocTest, UtAppendTest_eq_append]

theorem registerAll_eq (regs : List (UtTest σ)) (st : UtState E σ) :
    registerAll regs st = { st with ut_list := st.ut_list ++ regs } := by
  induction regs generalizing st with
  | nil => simp [registerAll]
  | cons t regs ih =>
    have h := ih (UtRegisterTest true t.name t.TestFn t.evalue st)
    simp only [registerAll, List.foldl_cons] at h ⊢
    rw [h, UtRegisterTest_success]
    simp

/-! ### The pattern statics -/

theorem UtRegex_ut_list (regex_arg : Option String) (st : UtState E σ) :
    (UtRegex E regex_arg st).2.ut_list = st.ut_list := by
  unfold UtRegex
  cases regex_arg with
  | none => rfl
  | some arg =>
    dsimp only
    split
    · rfl
    · split <;> rfl

theorem UtRegex_world (regex_arg : Option String) (st : UtState E σ) :
    (UtRegex E regex_arg st).2.world = st.world := by
  unfold UtRegex
  cases regex_arg with
  | none => rfl
  | some arg =>
    dsimp only
    split
    · rfl
    · split <;> rfl

theorem UtRegex_code (regex_arg : Option String) (st : UtState E σ) :
    (UtRegex E regex_arg st).1 = 1 ∨ (UtRegex E regex_arg st).1 = -1 := by
  unfold UtRegex
  cases regex_arg with
  | none => exact Or.inr rfl
  | some arg =>
    dsimp only
    split
    · exact Or.inr rfl
    · split
      · exact Or.inr rfl
      · exact Or.inl rfl

/-! ### The loop of `UtRunTests` -/

theorem exec_eq (ut : UtTest σ) (s : RunLocals E σ) :
    UtRunTests.exec ut s =
      { good := if (ut.TestFn s.st.world).1 = ut.evalue then u32incr s.good else s.good,
        bad := if (ut.TestFn s.st.world).1 = ut.evalue then s.bad else u32incr s.bad,
        st := { s.st with
          stdout := s.st.stdout ++ resultLine (ut, (ut.TestFn s.st.world).1),
          world := (ut.TestFn s.st.world).2 } } := by
  unfold UtRunTests.exec resultLine UtState.printf
  by_cases h : (ut.TestFn s.st.world).1 = ut.evalue <;> simp [h, String.append_assoc]

theorem loop_spec (rcomp : Int) (l : List (UtTest σ)) (s : RunLocals E σ)
    (hg : s.good < UINT32_MOD) (hb : s.bad < UINT32_MOD) :
    UtRunTests.loop rcomp l s =
      { good := (s.good +
          passCount (callAll (l.filter (selects E rcomp s.st.parse_regex s.st.parse_regex_study))
            s.st.world)) % UINT32_MOD,
        bad := (s.bad +
          failCount (callAll (l.filter (selects E rcomp s.st.parse_regex s.st.parse_regex_study))
            s.st.world)) % UINT32_MOD,
        st := { s.st with
          stdout := s.st.stdout ++
            resultLines (callAll (l.filter (selects E rcomp s.st.parse_regex s.st.parse_regex_study))
              s.st.world),
          world := worldAfter (l.filter (selects E rcomp s.st.parse_regex s.st.parse_regex_study))
            s.st.world } } := by
  induction l generalizing s with
  | nil =>
    simp [UtRunTests.loop, callAll, passCount, failCount, resultLines, worldAfter,
      Nat.mod_eq_of_lt hg, Nat.mod_eq_of_lt hb]
  | cons ut next ih =>
    have hM : UINT32_MOD = 4294967296 := rfl
    by_cases hsel : selects E rcomp s.st.parse_regex s.st.parse_regex_study ut = true
    · have hstep : UtRunTests.loop rcomp (ut :: next) s
          = UtRunTests.loop rcomp next (UtRunTests.exec ut s) := by
        simp only [selects, decide_eq_true_eq] at hsel
        by_cases hr : rcomp = 1
        · simp [UtRunTests.loop, hr, hsel hr]
        · simp [UtRunTests.loop, hr]
      rw [hstep, exec_eq]
      by_cases hp : (ut.TestFn s.st.world).1 = ut.evalue
      · rw [ih _ (by simp [hp, u32incr, hM]; omega) (by simpa [hp] using hb)]
        simp [hsel, hp, callAll, passCount, failCount, passes, resultLines, worldAfter,
          List.filter_cons, u32incr, String.append_assoc, hM] 
        omega
      · rw [ih _ (by simpa [hp] using hg) (by simp [hp, u32incr, hM]; omega)]
        simp [hsel, hp, callAll, passCount, failCount, passes, resultLines, worldAfter,
          List.filter_cons, u32incr, String.append_assoc, hM]
        omega
    · have hstep : UtRunTests.loop rcomp (ut :: next) s = UtRunTests.loop rcomp next s := by
        simp only [selects, decide_eq_true_eq, Classical.not_imp, not_le] at hsel
        simp [UtRunTests.loop, hsel.1, hsel.2]
      rw [hstep, ih _ hg hb]
      simp [hsel]

end UtUnittest

namespace UtUnittest

variable {E : PcreLib} {σ : Type}

theorem loop_append (rcomp : Int) (a b : List (UtTest σ)) (s : RunLocals E σ) :
    UtRunTests.loop rcomp (a ++ b) s = UtRunTests.loop rcomp b (UtRunTests.loop rcomp a s) := by
  induction a generalizing s with
  | nil => rfl
  | cons ut a ih =>
    simp only [List.cons_append, UtRunTests.loop]
    split
    · split <;> exact ih _
    · exact ih _

theorem loop_good_lt (rcomp : Int) (l : List (UtTest σ)) (s : RunLocals E σ)
    (hg : s.good < UINT32_MOD) (hb : s.bad < UINT32_MOD) :
    (UtRunTests.loop rcomp l s).good < UINT32_MOD ∧ (UtRunTests.loop rcomp l s).bad < UINT32_MOD := by
  rw [loop_spec rcomp l s hg hb]
  exact ⟨Nat.mod_lt _ (by decide), Nat.mod_lt _ (by decide)⟩

theorem loop_statics (rcomp : Int) (l : List (UtTest σ)) (s : RunLocals E σ)
    (hg : s.good < UINT32_MOD) (hb : s.bad < UINT32_MOD) :
    (UtRunTests.loop rcomp l s).st.parse_regex = s.st.parse_regex ∧
    (UtRunTests.loop rcomp l s).st.parse_regex_study = s.st.parse_regex_study ∧
    (UtRunTests.loop rcomp l s).st.ut_list = s.st.ut_list := by
  rw [loop_spec rcomp l s hg hb]
  exact ⟨rfl, rfl, rfl⟩

theorem pass_fail_count (os : List (UtTest σ × Int)) :
    passCount os + failCount os = os.length := by
  induction os with
  | nil => rfl
  | cons o os ih =>
    unfold passCount failCount at ih ⊢
    by_cases h : passes o = true
    · simp [List.filter_cons, h]; omega
    · simp [List.filter_cons, h]; omega

theorem callAll_length (ts : List (UtTest σ)) (w : σ) : (callAll ts w).length = ts.length := by
  induction ts generalizing w with
  | nil => rfl
  | cons t ts ih => simp [callAll, ih]

theorem failCount_eq (os : List (UtTest σ × Int)) :
    failCount os = (os.filter (fun o => decide (o.2 ≠ o.1.evalue))).length := by
  unfold failCount passes
  congr 1
  apply List.filter_congr
  intro o _
  by_cases h : o.2 = o.1.evalue <;> simp [h]

theorem failCount_eq_zero (os : List (UtTest σ × Int)) :
    failCount os = 0 ↔ ∀ o ∈ os, o.2 = o.1.evalue := by
  unfold failCount passes
  simp [List.filter_eq_nil_iff]

/-- C1: in a call of `UtRunTests` on a registry `pre ++ ut :: post`, when the
loop takes `ut`, the call goes on from the state reached after `ut`, and in
that state: if the body of `ut` returned the expected value, the counter of
passed tests is one more (as a `uint32_t`) than before `ut`, the counter of
failed tests is as before, and the line written is the name in its field
followed by `pass`; if it returned anything else, the counter of failed tests
is one more, the counter of passed tests is as before, and the line ends in
`FAILED`.  So the passed counter moves exactly when the values are equal and
the failed counter exactly when they differ. -/
theorem C1_counted_by_equality (E : PcreLib) (σ : Type) (regex_arg : Option String)
    (st : UtState E σ) (pre post : List (UtTest σ)) (ut : UtTest σ)
    (hreg : st.ut_list = pre ++ ut :: post)
    (hsel : selects E (UtRegex E regex_arg st).1 (UtRegex E regex_arg st).2.parse_regex
      (UtRegex E regex_arg st).2.parse_regex_study ut = true) :
    let r := UtRegex E regex_arg st
    let before := UtRunTests.loop r.1 pre { good := 0, bad := 0, st := r.2 }
    let after := UtRunTests.loop r.1 (pre ++ [ut]) { good := 0, bad := 0, st := r.2 }
    let ret := (ut.TestFn before.st.world).1
    UtRunTests.run E regex_arg st = UtRunTests.loop r.1 post after ∧
    (ret = ut.evalue →
      after.good = (before.good + 1) % 2 ^ 32 ∧ after.bad = before.bad ∧
      after.st.stdout = before.st.stdout ++ ("Test " ++ fmt60 ut.name ++ " : " ++ "pass" ++ "\n")) ∧
    (ret ≠ ut.evalue →
      after.good = before.good ∧ after.bad = (before.bad + 1) % 2 ^ 32 ∧
      after.st.stdout = before.st.stdout ++ ("Test " ++ fmt60 ut.name ++ " : " ++ "FAILED" ++ "\n")) ∧
    (after.good ≠ before.good ↔ ret = ut.evalue) ∧
    (after.bad ≠ before.bad ↔ ret ≠ ut.evalue) ∧
    after.st.world = (ut.TestFn before.st.world).2 := by
  intro r before after ret
  have h0 : (0 : Nat) < UINT32_MOD := by decide
  have hlt := loop_good_lt r.1 pre { good := 0, bad := 0, st := r.2 } h0 h0
  have hst := loop_statics r.1 pre { good := 0, bad := 0, st := r.2 } h0 h0
  have hM : UINT32_MOD = 4294967296 := rfl
  have hsel2 : selects E r.1 before.st.parse_regex before.st.parse_regex_study ut = true := by
    rw [hst.1, hst.2.1]; exact hsel
  have hafter : after = UtRunTests.exec ut before := by
    show UtRunTests.loop r.1 (pre ++ [ut]) _ = _
    rw [loop_append]
    show UtRunTests.loop r.1 [ut] before = _
    simp only [selects, decide_eq_true_eq] at hsel2
    by_cases hr : r.1 = 1
    · have hm := hsel2 hr
      simp [UtRunTests.loop, hr, hm]
    · simp [UtRunTests.loop, hr]
  refine ⟨?_, ?_, ?_, ?_, ?_, ?_⟩
  · show UtRunTests.loop r.1 r.2.ut_list _ = _
    rw [UtRegex_ut_list, hreg, ← loop_append]
    simp
  · intro he
    have he2 : (ut.TestFn before.st.world).1 = ut.evalue := he
    rw [hafter, exec_eq]
    simp [he2, resultLine, u32incr, hM]
  · intro he
    have he2 : ¬ (ut.TestFn before.st.world).1 = ut.evalue := he
    rw [hafter, exec_eq]
    simp [he2, resultLine, u32incr, hM]
  · rw [hafter, exec_eq]
    by_cases he : ret = ut.evalue
    · have he2 : (ut.TestFn before.st.world).1 = ut.evalue := he
      simp only [he2, if_true, he, iff_true, u32incr, hM]
      have := hlt.1
      omega
    · have he2 : ¬ (ut.TestFn before.st.world).1 = ut.evalue := he
      simp [he2, he]
  · rw [hafter, exec_eq]
    by_cases he : ret = ut.evalue
    · have he2 : (ut.TestFn before.st.world).1 = ut.evalue := he
      simp [he2, he]
    · have he2 : ¬ (ut.TestFn before.st.world).1 = ut.evalue := he
      simp only [he2, if_false, he, not_false_eq_true, iff_true, u32incr, hM]
      have := hlt.2
      omega
  · rw [hafter, exec_eq]

theorem C1_counted_by_equality_witness :
    (scenario.ut_list = [alpha] ++ beta :: [gamma] ∧
      selects refPcre (UtRegex refPcre (some "ta") scenario).1
        (UtRegex refPcre (some "ta") scenario).2.parse_regex
        (UtRegex refPcre (some "ta") scenario).2.parse_regex_study beta = true) ∧
    UtRunTests.run refPcre (some "ta") scenario =
      UtRunTests.loop (UtRegex refPcre (some "ta") scenario).1 [gamma]
        (UtRunTests.loop (UtRegex refPcre (some "ta") scenario).1 ([alpha] ++ [beta])
          { good := 0, bad := 0, st := (UtRegex refPcre (some "ta") scenario).2 }) :=
  ⟨⟨rfl, by decide⟩,
    (C1_counted_by_equality refPcre (List String) (some "ta") scenario [alpha] [gamma] beta rfl
      (by decide)).1⟩

/-! ### Whole runs -/

theorem selects_of_ne (rcomp : Int) (re : Option E.pcre) (extra : Option E.pcre_extra)
    (ut : UtTest σ) (h : rcomp ≠ 1) : selects E rcomp re extra ut = true := by
  simp [selects, h]

theorem filter_selects_of_ne (rcomp : Int) (re : Option E.pcre) (extra : Option E.pcre_extra)
    (l : List (UtTest σ)) (h : rcomp ≠ 1) : l.filter (selects E rcomp re extra) = l := by
  rw [List.filter_eq_self]
  intro ut _
  exact selects_of_ne rcomp re extra ut h

theorem run_spec (regex_arg : Option String) (st : UtState E σ) :
    UtRunTests.run E regex_arg st =
      { good := passCount (callAll (selection E regex_arg st) st.world) % UINT32_MOD,
        bad := failCount (callAll (selection E regex_arg st) st.world) % UINT32_MOD,
        st := { (UtRegex E regex_arg st).2 with
          stdout := (UtRegex E regex_arg st).2.stdout ++
            resultLines (callAll (selection E regex_arg st) st.world),
          world := worldAfter (selection E regex_arg st) st.world } } := by
  unfold UtRunTests.run selection
  simp only
  have h0 : (0 : Nat) < UINT32_MOD := by decide
  rw [loop_spec _ _ _ h0 h0]
  simp [UtRegex_ut_list, UtRegex_world]

theorem list_loop_spec (rcomp : Int) (l : List (UtTest σ)) (st : UtState E σ) :
    UtListTests.loop rcomp l st =
      { st with stdout := st.stdout ++
          nameLines (l.filter (selects E rcomp st.parse_regex st.parse_regex_study)) } := by
  induction l generalizing st with
  | nil => simp [UtListTests.loop, nameLines]
  | cons ut next ih =>
    by_cases hsel : selects E rcomp st.parse_regex st.parse_regex_study ut = true
    · have hstep : UtListTests.loop rcomp (ut :: next) st
          = UtListTests.loop rcomp next (st.printf (ut.name ++ "\n")) := by
        simp only [selects, decide_eq_true_eq] at hsel
        by_cases hr : rcomp = 1
        · simp [UtListTests.loop, hr, hsel hr]
        · simp [UtListTests.loop, hr]
      rw [hstep, ih]
      simp [UtState.printf, hsel, nameLines, String.append_assoc]
    · have hstep : UtListTests.loop rcomp (ut :: next) st = UtListTests.loop rcomp next st := by
        simp only [selects, decide_eq_true_eq, Classical.not_imp, not_le] at hsel
        simp [UtListTests.loop, hsel.1, hsel.2]
      rw [hstep, ih]
      simp [hsel]

theorem list_spec (regex_arg : Option String) (st : UtState E σ) :
    UtListTests E regex_arg st =
      { (UtRegex E regex_arg st).2 with
        stdout := (UtRegex E regex_arg st).2.stdout ++ nameLines (selection E regex_arg st) } := by
  unfold UtListTests selection
  simp only
  rw [list_loop_spec, UtRegex_ut_list]

theorem selection_none (st : UtState E σ) : selection E none st = st.ut_list := by
  unfold selection
  exact filter_selects_of_ne _ _ _ _ (by simp [UtRegex])

theorem registerAll_initialize (regs : List (UtTest σ)) (st0 : UtState E σ) :
    registerAll regs (UtInitialize st0) = { st0 with ut_list := regs } := by
  rw [registerAll_eq]
  simp [UtInitialize]

/-- C2: after `N` successful registrations into an empty registry, with
`N < 2 ^ 32`, a run without filter calls the bodies of all `N` tests, in
registration order, writes one result line for each, and the passed and failed
counts it reports in the summary add up to `N`. -/
theorem C2_unfiltered_run_counts_all (E : PcreLib) (σ : Type) (regs : List (UtTest σ))
    (st0 : UtState E σ) (hN : regs.length < 2 ^ 32) :
    let st := registerAll regs (UtInitialize st0)
    let res := UtRunTests E none st
    res.2.world = worldAfter regs st0.world ∧
    (callAll regs st0.world).length = regs.length ∧
    ∃ good bad : Nat,
      good + bad = regs.length ∧
      res.1 = bad ∧
      res.2.stdout = st0.stdout ++ resultLines (callAll regs st0.world)
        ++ ("==== TEST RESULTS ====\n" ++ ("PASSED: " ++ toString good ++ "\n")
          ++ ("FAILED: " ++ toString bad ++ "\n") ++ "======================\n") := by
  intro st res
  have hst : st = { st0 with ut_list := regs } := registerAll_initialize regs st0
  have hsel : selection E none st = regs := by rw [selection_none, hst]
  have hw : st.world = st0.world := by rw [hst]
  have hout : st.stdout = st0.stdout := by rw [hst]
  have hcount := pass_fail_count (callAll regs st0.world)
  rw [callAll_length] at hcount
  have hM : UINT32_MOD = 4294967296 := rfl
  have hres : res = ((UtRunTests.run E none st).bad,
      (UtRunTests.run E none st).st.printf
        (UtRunTests.summary (UtRunTests.run E none st).good (UtRunTests.run E none st).bad)) := rfl
  rw [hres, run_spec, hsel, hw]
  refine ⟨rfl, callAll_length _ _, passCount (callAll regs st0.world),
    failCount (callAll regs st0.world), hcount, ?_, ?_⟩
  · show failCount _ % UINT32_MOD = _
    rw [hM]; omega
  · have h1 : passCount (callAll regs st0.world) % UINT32_MOD
        = passCount (callAll regs st0.world) := by rw [hM]; omega
    have h2 : failCount (callAll regs st0.world) % UINT32_MOD
        = failCount (callAll regs st0.world) := by rw [hM]; omega
    simp only [UtState.printf, UtRunTests.summary, h1, h2]
    simp [UtRegex, hout]

theorem C2_unfiltered_run_counts_all_witness :
    [alpha, beta, gamma].length < 2 ^ 32 ∧
    (UtRunTests refPcre none (registerAll [alpha, beta, gamma]
      (UtInitialize (UtState.init refPcre ([] : List String))))).2.world
      = worldAfter [alpha, beta, gamma] [] :=
  ⟨by decide,
    (C2_unfiltered_run_counts_all refPcre (List String) [alpha, beta, gamma]
      (UtState.init refPcre []) (by decide)).1⟩

end UtUnittest

namespace UtUnittest

variable {E : PcreLib} {σ : Type}

theorem UtRegex_stdout_of_ok (regex_arg : Option String) (st : UtState E σ)
    (hc : (UtRegex E regex_arg st).1 = 1) : (UtRegex E regex_arg st).2.stdout = st.stdout := by
  revert hc
  unfold UtRegex
  cases regex_arg with
  | none => intro _; rfl
  | some arg =>
    dsimp only
    split
    · intro h; simp at h
    · split
      · intro h; simp at h
      · intro _; rfl

theorem selection_of_ok (regex_arg : Option String) (st : UtState E σ)
    (hc : (UtRegex E regex_arg st).1 = 1) :
    selection E regex_arg st = st.ut_list.filter (fun ut =>
      decide (1 ≤ (E.pcre_exec (UtRegex E regex_arg st).2.parse_regex
        (UtRegex E regex_arg st).2.parse_regex_study ut.name ut.name.length 0 0
        MAX_SUBSTRINGS).1)) := by
  unfold selection
  simp only
  apply List.filter_congr
  intro ut _
  simp [selects, hc]

theorem selection_of_fail (regex_arg : Option String) (st : UtState E σ)
    (hc : (UtRegex E regex_arg st).1 ≠ 1) : selection E regex_arg st = st.ut_list := by
  unfold selection
  exact filter_selects_of_ne _ _ _ _ hc

theorem failCount_le (os : List (UtTest σ × Int)) : failCount os ≤ os.length := by
  have := pass_fail_count os
  omega

theorem selection_length_le (regex_arg : Option String) (st : UtState E σ) :
    (selection E regex_arg st).length ≤ st.ut_list.length := by
  unfold selection
  exact List.length_filter_le _ _

/-- C3: on a registry of fewer than `2 ^ 32` descriptors and for every
filter, the value `UtRunTests` returns is the number of selected tests whose
body returned a value different from the expected one; the summary prints that
same number after `FAILED:`; and the value is `0` exactly when every selected
test returned its expected value. -/
theorem C3_return_is_failed_count (E : PcreLib) (σ : Type) (regex_arg : Option String)
    (st : UtState E σ) (hN : st.ut_list.length < 2 ^ 32) :
    let os := callAll (selection E regex_arg st) st.world
    let n := (os.filter (fun o => decide (o.2 ≠ o.1.evalue))).length
    let res := UtRunTests E regex_arg st
    res.1 = n ∧
    (∃ good : Nat, res.2.stdout = (UtRunTests.run E regex_arg st).st.stdout
      ++ ("==== TEST RESULTS ====\n" ++ ("PASSED: " ++ toString good ++ "\n")
        ++ ("FAILED: " ++ toString n ++ "\n") ++ "======================\n")) ∧
    (res.1 = 0 ↔ ∀ o ∈ os, o.2 = o.1.evalue) := by
  intro os n res
  have hM : UINT32_MOD = 4294967296 := rfl
  have hn : n = failCount os := (failCount_eq os).symm
  have hlen : failCount os < 4294967296 := by
    have h1 := failCount_le os
    have h2 : os.length = (selection E regex_arg st).length := callAll_length _ _
    have h3 := selection_length_le (E := E) regex_arg st
    have h4 : (2 : Nat) ^ 32 = 4294967296 := by norm_num
    omega
  have hbad : (UtRunTests.run E regex_arg st).bad = failCount os := by
    rw [run_spec]
    show failCount os % UINT32_MOD = _
    rw [hM]; omega
  have hres : res.1 = failCount os := hbad
  refine ⟨by rw [hres, hn], ⟨(UtRunTests.run E regex_arg st).good, ?_⟩, ?_⟩
  · show ((UtRunTests.run E regex_arg st).st.printf _).stdout = _
    rw [hn, ← hbad]
    rfl
  · rw [hres]
    exact failCount_eq_zero os

theorem C3_return_is_failed_count_witness :
    scenario.ut_list.length < 2 ^ 32 ∧
    (UtRunTests refPcre (some "ta") scenario).1 =
      ((callAll (selection refPcre (some "ta") scenario) scenario.world).filter
        (fun o => decide (o.2 ≠ o.1.evalue))).length :=
  ⟨by decide, (C3_return_is_failed_count refPcre (List String) (some "ta") scenario (by decide)).1⟩

/-- C4: when the filter compiles, the run is the run of the matched
descriptors alone (those whose name makes `pcre_exec` return at least `1`), in
registry order: the bodies called are theirs, once each and in that order, the
result lines are theirs, and the counters count them only.  When no name
matches, no body is called, nothing but the summary `PASSED: 0`, `FAILED: 0`
is written, and the value returned is `0`. -/
theorem C4_filter_runs_matched_only (E : PcreLib) (σ : Type) (pat : String) (st : UtState E σ)
    (hc : (UtRegex E (some pat) st).1 = 1) :
    let r := UtRegex E (some pat) st
    let matched := st.ut_list.filter (fun ut =>
      decide (1 ≤ (E.pcre_exec r.2.parse_regex r.2.parse_regex_study ut.name ut.name.length 0 0
        MAX_SUBSTRINGS).1))
    let s := UtRunTests.run E (some pat) st
    s = UtRunTests.loop (-1) matched { good := 0, bad := 0, st := r.2 } ∧
    s.st.world = worldAfter matched st.world ∧
    s.st.stdout = st.stdout ++ resultLines (callAll matched st.world) ∧
    s.good = passCount (callAll matched st.world) % 2 ^ 32 ∧
    s.bad = failCount (callAll matched st.world) % 2 ^ 32 ∧
    (matched = [] →
      UtRunTests E (some pat) st = (0, { r.2 with
        stdout := st.stdout ++
          "==== TEST RESULTS ====\nPASSED: 0\nFAILED: 0\n======================\n",
        world := st.world })) := by
  intro r matched s
  have h0 : (0 : Nat) < UINT32_MOD := by decide
  have hsel : selection E (some pat) st = matched := selection_of_ok (some pat) st hc
  have hout : r.2.stdout = st.stdout := UtRegex_stdout_of_ok (some pat) st hc
  have hw : r.2.world = st.world := UtRegex_world (some pat) st
  have hs : s = { good := passCount (callAll matched st.world) % UINT32_MOD,
                  bad := failCount (callAll matched st.world) % UINT32_MOD,
                  st := { r.2 with
                    stdout := st.stdout ++ resultLines (callAll matched st.world),
                    world := worldAfter matched st.world } } := by
    show UtRunTests.run E (some pat) st = _
    rw [run_spec, hsel]
    show _ = _
    rw [← hout]
  refine ⟨?_, ?_, ?_, ?_, ?_, ?_⟩
  · rw [hs, loop_spec _ _ _ h0 h0, filter_selects_of_ne _ _ _ _ (by decide)]
    simp [hw, hout]
  · rw [hs]
  · rw [hs]
  · rw [hs]; rfl
  · rw [hs]; rfl
  · intro hnil
    show ((UtRunTests.run E (some pat) st).bad, _) = _
    have hs2 : UtRunTests.run E (some pat) st = s := rfl
    rw [hs2, hs, hnil]
    simp only [callAll, passCount, failCount, resultLines, worldAfter, List.filter_nil,
      List.length_nil, Nat.zero_mod, UtState.printf, String.append_empty]
    rfl

theorem C4_filter_runs_matched_only_witness :
    (UtRegex refPcre (some "ta") scenario).1 = 1 ∧
    (UtRunTests.run refPcre (some "ta") scenario).st.world =
      worldAfter (scenario.ut_list.filter (fun ut =>
        decide (1 ≤ (refPcre.pcre_exec (UtRegex refPcre (some "ta") scenario).2.parse_regex
          (UtRegex refPcre (some "ta") scenario).2.parse_regex_study ut.name ut.name.length 0 0
          MAX_SUBSTRINGS).1))) scenario.world :=
  ⟨by decide,
    (C4_filter_runs_matched_only refPcre (List String) "ta" scenario (by decide)).2.1⟩

/-- C5: after any sequence of successful registrations into an empty
registry, `UtListTests` without filter writes exactly the registered names, one
per line, in registration order, repeated names included, and changes nothing
else. -/
theorem C5_list_in_registration_order (E : PcreLib) (σ : Type) (regs : List (UtTest σ))
    (st0 : UtState E σ) :
    UtListTests E none (registerAll regs (UtInitialize st0)) =
      { st0 with ut_list := regs, stdout := st0.stdout ++ nameLines regs } := by
  rw [list_spec, selection_none, registerAll_initialize]
  simp [UtRegex]

end UtUnittest

namespace UtUnittest

variable {E : PcreLib} {σ : Type}

/-! ### Patterns that do not compile, absent and empty patterns -/

theorem UtRegex_compile_error (pat : String) (st : UtState E σ) (eb : String) (eo : Int)
    (h : E.pcre_compile pat 0 = Except.error (eb, eo)) :
    UtRegex E (some pat) st = (-1, { st with
      parse_regex := none,
      stdout := st.stdout ++ ("pcre compile of \"" ++ pat ++ "\" failed at offset "
        ++ toString eo ++ ": " ++ eb ++ "\n") }) := by
  simp [UtRegex, h, UtState.printf]

theorem UtRegex_study_error (pat : String) (st : UtState E σ) (re : E.pcre) (msg : String)
    (h : E.pcre_compile pat 0 = Except.ok re) (hs : (E.pcre_study re 0).2 = some msg) :
    UtRegex E (some pat) st = (-1, { st with
      parse_regex := some re,
      parse_regex_study := (E.pcre_study re 0).1,
      stdout := st.stdout ++ ("pcre study failed: " ++ msg ++ "\n") }) := by
  simp [UtRegex, h, hs, UtState.printf]

theorem UtRegex_ok (pat : String) (st : UtState E σ) (re : E.pcre)
    (h : E.pcre_compile pat 0 = Except.ok re) (hs : (E.pcre_study re 0).2 = none) :
    UtRegex E (some pat) st = (1, { st with
      parse_regex := some re,
      parse_regex_study := (E.pcre_study re 0).1 }) := by
  simp [UtRegex, h, hs]

/-- C6: when the filter fails to compile (`pcre_compile` or `pcre_study`
reports an error), `UtRunTests` still runs: it calls the body of every
registered test in registration order, as the run without filter does, and
returns the same failed count; its output is that of the run without filter
with the compiler's diagnostic in front. -/
theorem C6_invalid_pattern_runs_all (E : PcreLib) (σ : Type) (pat : String) (st : UtState E σ)
    (hfail : (∃ e, E.pcre_compile pat 0 = Except.error e) ∨
      (∃ re msg, E.pcre_compile pat 0 = Except.ok re ∧ (E.pcre_study re 0).2 = some msg)) :
    let res := UtRunTests E (some pat) st
    let plain := UtRunTests E none st
    res.1 = plain.1 ∧
    res.2.world = plain.2.world ∧
    res.2.world = worldAfter st.ut_list st.world ∧
    res.2.ut_list = st.ut_list ∧
    (UtRunTests.run E (some pat) st).good = (UtRunTests.run E none st).good ∧
    (UtRunTests.run E (some pat) st).bad = (UtRunTests.run E none st).bad ∧
    ∃ diag body : String,
      body = resultLines (callAll st.ut_list st.world)
        ++ UtRunTests.summary (UtRunTests.run E none st).good (UtRunTests.run E none st).bad ∧
      plain.2.stdout = st.stdout ++ body ∧
      res.2.stdout = st.stdout ++ diag ++ body := by
  intro res plain
  have hplain : UtRunTests.run E none st =
      { good := passCount (callAll st.ut_list st.world) % UINT32_MOD,
        bad := failCount (callAll st.ut_list st.world) % UINT32_MOD,
        st := { st with
          stdout := st.stdout ++ resultLines (callAll st.ut_list st.world),
          world := worldAfter st.ut_list st.world } } := by
    rw [run_spec, selection_none]
    simp [UtRegex]
  have key : ∃ diag : String, (UtRegex E (some pat) st).1 = -1 ∧
      (UtRegex E (some pat) st).2.stdout = st.stdout ++ diag := by
    rcases hfail with ⟨⟨eb, eo⟩, h⟩ | ⟨re, msg, h, hs⟩
    · exact ⟨_, by rw [UtRegex_compile_error pat st eb eo h],
        by rw [UtRegex_compile_error pat st eb eo h]⟩
    · exact ⟨_, by rw [UtRegex_study_error pat st re msg h hs],
        by rw [UtRegex_study_error pat st re msg h hs]⟩
  obtain ⟨diag, hcode, hdiag⟩ := key
  have hne : (UtRegex E (some pat) st).1 ≠ 1 := by rw [hcode]; decide
  have hrun : UtRunTests.run E (some pat) st =
      { good := passCount (callAll st.ut_list st.world) % UINT32_MOD,
        bad := failCount (callAll st.ut_list st.world) % UINT32_MOD,
        st := { (UtRegex E (some pat) st).2 with
          stdout := st.stdout ++ diag ++ resultLines (callAll st.ut_list st.world),
          world := worldAfter st.ut_list st.world } } := by
    rw [run_spec, selection_of_fail _ _ hne, hdiag]
  have hres : res = ((UtRunTests.run E (some pat) st).bad,
      (UtRunTests.run E (some pat) st).st.printf
        (UtRunTests.summary (UtRunTests.run E (some pat) st).good
          (UtRunTests.run E (some pat) st).bad)) := rfl
  have hpl : plain = ((UtRunTests.run E none st).bad,
      (UtRunTests.run E none st).st.printf
        (UtRunTests.summary (UtRunTests.run E none st).good
          (UtRunTests.run E none st).bad)) := rfl
  refine ⟨?_, ?_, ?_, ?_, ?_, ?_, diag, _, rfl, ?_, ?_⟩
  · rw [hres, hpl, hrun, hplain]
  · rw [hres, hpl, hrun, hplain]; rfl
  · rw [hres, hrun]; rfl
  · rw [hres, hrun]; exact UtRegex_ut_list (some pat) st
  · rw [hrun, hplain]
  · rw [hrun, hplain]
  · rw [hpl, hplain]
    simp [UtState.printf, String.append_assoc]
  · rw [hres, hrun, hplain]
    simp [UtState.printf, String.append_assoc]

theorem C6_invalid_pattern_runs_all_witness :
    ((∃ e, refPcre.pcre_compile "*" 0 = Except.error e) ∨
      (∃ re msg, refPcre.pcre_compile "*" 0 = Except.ok re ∧
        (refPcre.pcre_study re 0).2 = some msg)) ∧
    (UtRunTests refPcre (some "*") scenario).1 = (UtRunTests refPcre none scenario).1 :=
  ⟨Or.inl ⟨("nothing to repeat", 0), rfl⟩,
    (C6_invalid_pattern_runs_all refPcre (List String) "*" scenario
      (Or.inl ⟨("nothing to repeat", 0), rfl⟩)).1⟩

/-- C7, as stated, fails: the pattern `*` is not empty and does not compile,
and `UtRegex` returns for it the very value it returns for an absent pattern. -/
theorem C7_counterexample :
    "*" ≠ "" ∧ (∃ e, refPcre.pcre_compile "*" 0 = Except.error e) ∧
    ¬ ((UtRegex refPcre (some "*") scenario).1 ≠ (UtRegex refPcre none scenario).1) :=
  ⟨by decide, ⟨("nothing to repeat", 0), rfl⟩, by decide⟩

/-- C7, amended: `UtRegex` returns `-1` both for a pattern that fails to
compile and for an absent pattern, so its result does not tell the two apart.
They differ in their effects only: the failed compile writes a diagnostic and
clears `parse_regex`, the absent pattern leaves the state as it was. -/
theorem C7_same_code_for_invalid_and_absent (E : PcreLib) (σ : Type) (pat : String)
    (st : UtState E σ) (eb : String) (eo : Int)
    (hfail : E.pcre_compile pat 0 = Except.error (eb, eo)) :
    (UtRegex E (some pat) st).1 = -1 ∧
    (UtRegex E none st).1 = -1 ∧
    (UtRegex E none st).2 = st ∧
    (UtRegex E (some pat) st).2 = { st with
      parse_regex := none,
      stdout := st.stdout ++ ("pcre compile of \"" ++ pat ++ "\" failed at offset "
        ++ toString eo ++ ": " ++ eb ++ "\n") } := by
  rw [UtRegex_compile_error pat st eb eo hfail]
  exact ⟨rfl, rfl, rfl, rfl⟩

theorem C7_same_code_for_invalid_and_absent_witness :
    refPcre.pcre_compile "*" 0 = Except.error ("nothing to repeat", 0) ∧
    (UtRegex refPcre (some "*") scenario).1 = -1 ∧
    (UtRegex refPcre none scenario).1 = -1 :=
  ⟨rfl,
    (C7_same_code_for_invalid_and_absent refPcre (List String) "*" scenario
      "nothing to repeat" 0 rfl).1,
    (C7_same_code_for_invalid_and_absent refPcre (List String) "*" scenario
      "nothing to repeat" 0 rfl).2.1⟩

end UtUnittest

namespace UtUnittest

variable {E : PcreLib} {σ : Type}

/-- C8, as stated, fails for the empty string: `UtRegex` hands it to the
compiler and stores the result, so the pattern slot, empty before the call,
holds a compiled pattern after it. -/
theorem C8_counterexample :
    scenario.parse_regex.isSome = false ∧
    (UtRegex refPcre (some "") scenario).2.parse_regex.isSome = true ∧
    (UtRegex refPcre (some "") scenario).1 = 1 :=
  ⟨by decide, by decide, by decide⟩

/-- C8, amended: for an absent filter `UtRegex` compiles nothing and leaves
the whole state, the pattern slot included, as it was, and `UtListTests` and
`UtRunTests` take every registered test.  The empty string is compiled like
any other pattern and the result stored in the slot; every registered test is
still taken as long as the compiled empty pattern, when there is one, is
found by `pcre_exec` in every name. -/
theorem C8_absent_or_empty_filter (E : PcreLib) (σ : Type) (st : UtState E σ)
    (hE : ∀ re, E.pcre_compile "" 0 = Except.ok re → ∀ name : String,
      1 ≤ (E.pcre_exec (some re) (E.pcre_study re 0).1 name name.length 0 0 MAX_SUBSTRINGS).1) :
    UtRegex E none st = (-1, st) ∧
    UtListTests E none st = { st with stdout := st.stdout ++ nameLines st.ut_list } ∧
    (UtRunTests.run E none st).st.world = worldAfter st.ut_list st.world ∧
    (UtRunTests.run E none st).st.stdout
      = st.stdout ++ resultLines (callAll st.ut_list st.world) ∧
    (UtRegex E (some "") st).2.parse_regex
      = (match E.pcre_compile "" 0 with
        | Except.ok re => some re
        | Except.error _ => none) ∧
    (UtListTests E (some "") st).stdout
      = (UtRegex E (some "") st).2.stdout ++ nameLines st.ut_list ∧
    (UtRunTests.run E (some "") st).st.world = worldAfter st.ut_list st.world ∧
    (UtRunTests.run E (some "") st).st.stdout
      = (UtRegex E (some "") st).2.stdout ++ resultLines (callAll st.ut_list st.world) := by
  have hsel : selection E (some "") st = st.ut_list := by
    unfold selection
    rw [List.filter_eq_self]
    intro ut _
    cases hcomp : E.pcre_compile "" 0 with
    | error e =>
      obtain ⟨eb, eo⟩ := e
      rw [UtRegex_compile_error "" st eb eo hcomp]
      exact selects_of_ne _ _ _ _ (show (-1 : Int) ≠ 1 by decide)
    | ok re =>
      cases hs : (E.pcre_study re 0).2 with
      | some msg =>
        rw [UtRegex_study_error "" st re msg hcomp hs]
        exact selects_of_ne _ _ _ _ (show (-1 : Int) ≠ 1 by decide)
      | none =>
        rw [UtRegex_ok "" st re hcomp hs]
        simp only [selects, decide_eq_true_eq]
        intro _
        exact hE re hcomp ut.name
  have hslot : (UtRegex E (some "") st).2.parse_regex
      = (match E.pcre_compile "" 0 with
        | Except.ok re => some re
        | Except.error _ => none) := by
    cases hcomp : E.pcre_compile "" 0 with
    | error e =>
      obtain ⟨eb, eo⟩ := e
      rw [UtRegex_compile_error "" st eb eo hcomp]
    | ok re =>
      cases hs : (E.pcre_study re 0).2 with
      | some msg => rw [UtRegex_study_error "" st re msg hcomp hs]
      | none => rw [UtRegex_ok "" st re hcomp hs]
  refine ⟨rfl, ?_, ?_, ?_, hslot, ?_, ?_, ?_⟩
  · rw [list_spec, selection_none]; rfl
  · rw [run_spec, selection_none]
  · rw [run_spec, selection_none]; rfl
  · rw [list_spec, hsel]
  · rw [run_spec, hsel]
  · rw [run_spec, hsel]

theorem C8_absent_or_empty_filter_witness :
    (∀ re, refPcre.pcre_compile "" 0 = Except.ok re → ∀ name : String,
      1 ≤ (refPcre.pcre_exec (some re) (refPcre.pcre_study re 0).1 name name.length 0 0
        MAX_SUBSTRINGS).1) ∧
    UtRegex refPcre none scenario = (-1, scenario) :=
  have h : ∀ re, refPcre.pcre_compile "" 0 = Except.ok re → ∀ name : String,
      1 ≤ (refPcre.pcre_exec (some re) (refPcre.pcre_study re 0).1 name name.length 0 0
        MAX_SUBSTRINGS).1 := by
    intro re hre name
    have hre2 : re = ([] : List RefItem) := by
      have h0 : refPcre.pcre_compile "" 0 = Except.ok ([] : List RefItem) := rfl
      rw [h0] at hre
      exact (Except.ok.inj hre).symm
    subst hre2
    show 1 ≤ (refExec (some []) none name name.length 0 0 MAX_SUBSTRINGS).1
    unfold refExec
    simp only [List.drop_zero]
    cases hd : List.take name.length name.data with
    | nil => simp [refSearch, refMatchHere]
    | cons x xs => simp [refSearch, refMatchHere]
  ⟨h, (C8_absent_or_empty_filter refPcre (List String) scenario h).1⟩

/-- C9, as stated, fails: the pattern `x*` compiles, its match in the name
`beta` is the empty one at offset 0, no part of `beta` of one character or more
satisfies it, and yet `UtListTests` lists `beta` and `UtRunTests` calls its
body. -/
theorem C9_counterexample :
    (UtRegex refPcre (some "x*") scenario).1 = 1 ∧
    refPcre.pcre_exec (UtRegex refPcre (some "x*") scenario).2.parse_regex
      (UtRegex refPcre (some "x*") scenario).2.parse_regex_study
      "beta" "beta".length 0 0 MAX_SUBSTRINGS = (1, [0, 0]) ∧
    (∀ i ∈ List.range 5, ∀ j ∈ List.range 5, i < j →
      refAccepts [RefItem.star 'x'] (("beta".data.drop i).take (j - i)) = false) ∧
    (UtListTests refPcre (some "x*") scenario).stdout = "alpha\nbeta\ngamma\n" ∧
    (UtRunTests refPcre (some "x*") scenario).2.world = ["alpha", "beta", "gamma"] :=
  ⟨by decide, by decide, by decide, by decide, by decide⟩

/-- C9, amended: under a pattern that compiled, a test is taken by
`UtListTests` and by `UtRunTests` exactly when `pcre_exec`, called on its name
with no option, returns at least `1`, whatever the length of the match found;
a name for which `pcre_exec` returns `0` or a negative code is not taken. -/
theorem C9_selected_iff_exec_code_positive (E : PcreLib) (σ : Type) (pat : String)
    (st : UtState E σ) (hc : (UtRegex E (some pat) st).1 = 1) :
    let r := UtRegex E (some pat) st
    let code := fun (ut : UtTest σ) =>
      (E.pcre_exec r.2.parse_regex r.2.parse_regex_study ut.name ut.name.length 0 0
        MAX_SUBSTRINGS).1
    (UtListTests E (some pat) st).stdout
      = st.stdout ++ nameLines (st.ut_list.filter (fun ut => decide (1 ≤ code ut))) ∧
    (UtRunTests.run E (some pat) st).st.world
      = worldAfter (st.ut_list.filter (fun ut => decide (1 ≤ code ut))) st.world ∧
    (UtRunTests.run E (some pat) st).st.stdout
      = st.stdout ++ resultLines (callAll (st.ut_list.filter (fun ut => decide (1 ≤ code ut)))
          st.world) ∧
    (∀ ut, ut ∈ st.ut_list.filter (fun ut => decide (1 ≤ code ut))
      ↔ ut ∈ st.ut_list ∧ 1 ≤ code ut) ∧
    (∀ ut, code ut ≤ 0 → ut ∉ st.ut_list.filter (fun ut => decide (1 ≤ code ut))) := by
  intro r code
  have hsel := selection_of_ok (some pat) st hc
  have hout := UtRegex_stdout_of_ok (some pat) st hc
  refine ⟨?_, ?_, ?_, ?_, ?_⟩
  · rw [list_spec, hsel, hout]
  · rw [run_spec, hsel]
  · rw [run_spec, hsel, hout]
  · intro ut
    simp [List.mem_filter]
  · intro ut hle hmem
    have := (List.mem_filter.mp hmem).2
    simp only [decide_eq_true_eq] at this
    omega

theorem C9_selected_iff_exec_code_positive_witness :
    (UtRegex refPcre (some "x*") scenario).1 = 1 ∧
    (UtRunTests.run refPcre (some "x*") scenario).st.world
      = worldAfter (scenario.ut_list.filter (fun ut => decide (1 ≤
          (refPcre.pcre_exec (UtRegex refPcre (some "x*") scenario).2.parse_regex
            (UtRegex refPcre (some "x*") scenario).2.parse_regex_study ut.name ut.name.length 0 0
            MAX_SUBSTRINGS).1))) scenario.world :=
  ⟨by decide,
    (C9_selected_iff_exec_code_positive refPcre (List String) "x*" scenario (by decide)).2.1⟩

/-- C10: for every registry and every filter, `UtListTests` and `UtRunTests`
take the same descriptors: the names the first writes, one per line, are the
names of the tests whose bodies the second calls, in the same order.
`UtListTests` calls no body (the hosting program's data is as before), and,
apart from what `UtRegex` does, changes nothing but the output. -/
theorem C10_list_and_run_select_alike (E : PcreLib) (σ : Type) (regex_arg : Option String)
    (st : UtState E σ) :
    let sel := selection E regex_arg st
    let r := UtRegex E regex_arg st
    UtListTests E regex_arg st = { r.2 with stdout := r.2.stdout ++ nameLines sel } ∧
    UtRunTests.run E regex_arg st = UtRunTests.loop (-1) sel { good := 0, bad := 0, st := r.2 } ∧
    (UtRunTests.run E regex_arg st).st.world = worldAfter sel st.world ∧
    (UtRunTests.run E regex_arg st).st.stdout = r.2.stdout ++ resultLines (callAll sel st.world) ∧
    (callAll sel st.world).map (fun o => o.1) = sel ∧
    (UtListTests E regex_arg st).world = st.world ∧
    (UtListTests E regex_arg st).ut_list = st.ut_list := by
  intro sel r
  have h0 : (0 : Nat) < UINT32_MOD := by decide
  have hcall : ∀ (ts : List (UtTest σ)) (w : σ), (callAll ts w).map (fun o => o.1) = ts := by
    intro ts
    induction ts with
    | nil => intro w; rfl
    | cons t ts ih => intro w; simp [callAll, ih]
  refine ⟨list_spec regex_arg st, ?_, ?_, ?_, hcall _ _, ?_, ?_⟩
  · rw [run_spec, loop_spec _ _ _ h0 h0, filter_selects_of_ne _ _ _ _ (by decide)]
    simp [UtRegex_world, sel, r]
  · rw [run_spec]
  · rw [run_spec]
  · rw [list_spec]; exact UtRegex_world regex_arg st
  · rw [list_spec]; exact UtRegex_ut_list regex_arg st

end UtUnittest

namespace UtUnittest

variable {E : PcreLib} {σ : Type}

/-! ### Resetting the registry -/

theorem UtRegex_stdout (regex_arg : Option String) (st : UtState E σ) :
    (UtRegex E regex_arg st).2.stdout = st.stdout ++ UtRegex.diagnostic E regex_arg := by
  unfold UtRegex UtRegex.diagnostic
  cases regex_arg with
  | none => simp
  | some arg =>
    dsimp only
    cases hcomp : E.pcre_compile arg 0 with
    | error e => rfl
    | ok re =>
      dsimp only
      cases hs : (E.pcre_study re 0).2 with
      | some msg => rfl
      | none => simp

theorem UtRegex_diagnostic_of_ok (regex_arg : Option String) (st : UtState E σ)
    (hc : (UtRegex E regex_arg st).1 = 1) : UtRegex.diagnostic E regex_arg = "" := by
  revert hc
  unfold UtRegex UtRegex.diagnostic
  cases regex_arg with
  | none => intro _; rfl
  | some arg =>
    dsimp only
    cases hcomp : E.pcre_compile arg 0 with
    | error e => intro h; simp at h
    | ok re =>
      dsimp only
      cases hs : (E.pcre_study re 0).2 with
      | some msg => intro h; simp at h
      | none => intro _; rfl

theorem UtRegex_with_ut_list (regex_arg : Option String) (st : UtState E σ)
    (l : List (UtTest σ)) :
    UtRegex E regex_arg { st with ut_list := l }
      = ((UtRegex E regex_arg st).1, { (UtRegex E regex_arg st).2 with ut_list := l }) := by
  unfold UtRegex
  cases regex_arg with
  | none => rfl
  | some arg =>
    dsimp only
    cases hcomp : E.pcre_compile arg 0 with
    | error e => rfl
    | ok re =>
      dsimp only
      cases hs : (E.pcre_study re 0).2 with
      | some msg => rfl
      | none => rfl

theorem UtRunTests_empty (regex_arg : Option String) (st : UtState E σ) :
    UtRunTests E regex_arg { st with ut_list := [] } =
      (0, { (UtRegex E regex_arg st).2 with
        ut_list := [],
        stdout := (UtRegex E regex_arg st).2.stdout ++
          "==== TEST RESULTS ====\nPASSED: 0\nFAILED: 0\n======================\n" }) := by
  unfold UtRunTests UtRunTests.run
  simp only [UtRegex_with_ut_list, UtRunTests.loop]
  rfl

/-- C11, as stated, fails for a filter that does not compile: after
`UtCleanup`, the run with the filter `*` writes the compiler's diagnostic
before the summary, so the output is not the summary alone. -/
theorem C11_counterexample :
    (UtRunTests refPcre (some "*") (UtCleanup scenario)).2.stdout =
      scenario.stdout ++ ("pcre compile of \"*\" failed at offset 0: nothing to repeat\n" ++
        "==== TEST RESULTS ====\nPASSED: 0\nFAILED: 0\n======================\n") ∧
    (UtRunTests refPcre (some "*") (UtCleanup scenario)).2.stdout ≠
      scenario.stdout ++
        "==== TEST RESULTS ====\nPASSED: 0\nFAILED: 0\n======================\n" :=
  ⟨by decide, by decide⟩

/-- C11, amended: from every state and for every filter, `UtCleanup`
followed by `UtRunTests` does what `UtRunTests` does on a registry that was
never populated: no body is called, the value returned is `0`, and the output
is the text `UtRegex` writes for the filter followed by the summary with
`PASSED: 0` and `FAILED: 0`.  That text is empty when the filter is absent and
when it compiles, so the output is then the summary alone. -/
theorem C11_cleanup_then_run (E : PcreLib) (σ : Type) (regex_arg : Option String)
    (st : UtState E σ) :
    UtRunTests E regex_arg (UtCleanup st) = UtRunTests E regex_arg { st with ut_list := [] } ∧
    (UtRunTests E regex_arg (UtCleanup st)).1 = 0 ∧
    (UtRunTests E regex_arg (UtCleanup st)).2.world = st.world ∧
    (UtRunTests E regex_arg (UtCleanup st)).2.ut_list = [] ∧
    (UtRunTests E regex_arg (UtCleanup st)).2.stdout =
      st.stdout ++ UtRegex.diagnostic E regex_arg ++
        "==== TEST RESULTS ====\nPASSED: 0\nFAILED: 0\n======================\n" ∧
    UtRegex.diagnostic E none = "" ∧
    ((UtRegex E regex_arg st).1 = 1 → UtRegex.diagnostic E regex_arg = "") := by
  have hc : UtCleanup st = { st with ut_list := [] } := rfl
  rw [hc, UtRunTests_empty]
  refine ⟨rfl, rfl, UtRegex_world regex_arg st, rfl, ?_, rfl, ?_⟩
  · show (UtRegex E regex_arg st).2.stdout ++ _ = _
    rw [UtRegex_stdout]
  · exact UtRegex_diagnostic_of_ok regex_arg st

theorem C11_cleanup_then_run_witness :
    (UtRegex refPcre (some "ta") scenario).1 = 1 ∧
    UtRegex.diagnostic refPcre (some "ta") = "" :=
  ⟨by decide,
    (C11_cleanup_then_run refPcre (List String) (some "ta") scenario).2.2.2.2.2.2 (by decide)⟩

/-- C12: from every state `UtInitialize` and `UtCleanup` leave the
registry empty and the rest of the state as it was; the loop of `UtCleanup`
visits the list to its end; doing either twice gives what doing it once
gives; and on a registry that is already empty either leaves the state as it
is. -/
theorem C12_reset_idempotent (E : PcreLib) (σ : Type) (st : UtState E σ) :
    UtInitialize st = { st with ut_list := [] } ∧
    UtCleanup st = { st with ut_list := [] } ∧
    (UtInitialize st).ut_list = [] ∧
    (UtCleanup st).ut_list = [] ∧
    UtCleanup.loop st.ut_list = [] ∧
    UtInitialize (UtInitialize st) = UtInitialize st ∧
    UtCleanup (UtCleanup st) = UtCleanup st ∧
    UtInitialize ({ st with ut_list := [] } : UtState E σ) = { st with ut_list := [] } ∧
    UtCleanup ({ st with ut_list := [] } : UtState E σ) = { st with ut_list := [] } := by
  have hloop : ∀ l : List (UtTest σ), UtCleanup.loop l = [] := by
    intro l
    induction l with
    | nil => rfl
    | cons t l ih => exact ih
  exact ⟨rfl, rfl, rfl, rfl, hloop _, rfl, rfl, rfl, rfl⟩

/-- C13: a successful `UtRegisterTest` on a registry `L` leaves `L`
followed by one new descriptor holding the given name, body and expected
value: the length is one more, the first `|L|` descriptors are those of `L` in
their positions, what follows them is the new descriptor alone, and the rest of
the state is as before. -/
theorem C13_register_appends (E : PcreLib) (σ : Type) (name : String) (fn : σ → Int × σ)
    (ev : Int) (st : UtState E σ) :
    let st2 := UtRegisterTest true name fn ev st
    st2.ut_list = st.ut_list ++ [{ name := name, TestFn := fn, evalue := ev }] ∧
    st2.ut_list.length = st.ut_list.length + 1 ∧
    st2.ut_list.take st.ut_list.length = st.ut_list ∧
    st2.ut_list.drop st.ut_list.length = [{ name := name, TestFn := fn, evalue := ev }] ∧
    (∀ i : Fin st.ut_list.length, st2.ut_list[i.val]? = some (st.ut_list.get i)) ∧
    st2.ut_list[st.ut_list.length]? = some { name := name, TestFn := fn, evalue := ev } ∧
    st2 = { st with ut_list := st2.ut_list } := by
  intro st2
  have h : st2 = { st with
      ut_list := st.ut_list ++ [{ name := name, TestFn := fn, evalue := ev }] } :=
    UtRegisterTest_success name fn ev st
  rw [h]
  refine ⟨rfl, by simp, by simp, by simp, ?_, by simp, rfl⟩
  intro i
  simp [List.getElem?_append_left i.isLt]

end UtUnittest

namespace UtUnittest

variable {E : PcreLib} {σ : Type}

/-! ### The two scenarios -/

set_option maxRecDepth 8000 in
/-- C14: with `alpha` (returns 1, expects 1), `beta` (returns 0, expects 1)
and `gamma` (returns 5, expects 5) registered in that order in an empty
registry, `UtRunTests` without filter returns `1`, calls the three bodies in
that order, and writes `alpha` with `pass`, `beta` with `FAILED`, `gamma` with
`pass`, then the summary with `PASSED: 2` and `FAILED: 1`; this for every
engine, which is not consulted. -/
theorem C14_scenario_unfiltered (E : PcreLib) :
    UtRunTests E none (registerAll [alpha, beta, gamma] (UtState.init E [])) =
      (1, { parse_regex := none, parse_regex_study := none,
            ut_list := [alpha, beta, gamma],
            stdout :=
              "Test alpha                                                        : pass\n" ++
              "Test beta                                                         : FAILED\n" ++
              "Test gamma                                                        : pass\n" ++
              "==== TEST RESULTS ====\nPASSED: 2\nFAILED: 1\n======================\n",
            world := ["alpha", "beta", "gamma"] }) := by
  have hreg : registerAll [alpha, beta, gamma] (UtState.init E ([] : List String))
      = { parse_regex := none, parse_regex_study := none, ut_list := [alpha, beta, gamma],
          stdout := "", world := [] } := rfl
  have hrun := run_spec (E := E) none
    (registerAll [alpha, beta, gamma] (UtState.init E ([] : List String)))
  rw [selection_none, hreg] at hrun
  unfold UtRunTests
  rw [hreg, hrun]
  have e1 : failCount (callAll [alpha, beta, gamma] ([] : List String)) % UINT32_MOD = 1 := by
    decide
  have e2 : passCount (callAll [alpha, beta, gamma] ([] : List String)) % UINT32_MOD = 2 := by
    decide
  have e3 : worldAfter [alpha, beta, gamma] ([] : List String) = ["alpha", "beta", "gamma"] := by
    decide
  have e4 : "" ++ resultLines (callAll [alpha, beta, gamma] ([] : List String))
        ++ UtRunTests.summary 2 1 =
      "Test alpha                                                        : pass\n" ++
      "Test beta                                                         : FAILED\n" ++
      "Test gamma                                                        : pass\n" ++
      "==== TEST RESULTS ====\nPASSED: 2\nFAILED: 1\n======================\n" := by decide
  simp only [e1, e2, e3, UtState.printf, UtRegex]
  rw [e4]

/-- C15: with the same three registrations and an engine that compiles
`ta` and finds it in `beta` but neither in `alpha` nor in `gamma`, `UtRunTests`
with the filter `ta` calls the body of `beta` only, writes its line with
`FAILED` and the summary with `PASSED: 0` and `FAILED: 1`, and returns `1`. -/
theorem C15_scenario_filter_ta (E : PcreLib) (re : E.pcre)
    (hcomp : E.pcre_compile "ta" 0 = Except.ok re)
    (hstudy : (E.pcre_study re 0).2 = none)
    (halpha : (E.pcre_exec (some re) (E.pcre_study re 0).1 "alpha" "alpha".length 0 0
      MAX_SUBSTRINGS).1 < 1)
    (hbeta : 1 ≤ (E.pcre_exec (some re) (E.pcre_study re 0).1 "beta" "beta".length 0 0
      MAX_SUBSTRINGS).1)
    (hgamma : (E.pcre_exec (some re) (E.pcre_study re 0).1 "gamma" "gamma".length 0 0
      MAX_SUBSTRINGS).1 < 1) :
    UtRunTests E (some "ta") (registerAll [alpha, beta, gamma] (UtState.init E [])) =
      (1, { parse_regex := some re, parse_regex_study := (E.pcre_study re 0).1,
            ut_list := [alpha, beta, gamma],
            stdout :=
              "Test beta                                                         : FAILED\n" ++
              "==== TEST RESULTS ====\nPASSED: 0\nFAILED: 1\n======================\n",
            world := ["beta"] }) := by
  have hreg : registerAll [alpha, beta, gamma] (UtState.init E ([] : List String))
      = { parse_regex := none, parse_regex_study := none, ut_list := [alpha, beta, gamma],
          stdout := "", world := [] } := rfl
  have ha : ¬ (1 ≤ (E.pcre_exec (some re) (E.pcre_study re 0).1 alpha.name alpha.name.length 0 0
      MAX_SUBSTRINGS).1) := not_le.mpr halpha
  have hb : 1 ≤ (E.pcre_exec (some re) (E.pcre_study re 0).1 beta.name beta.name.length 0 0
      MAX_SUBSTRINGS).1 := hbeta
  have hg : ¬ (1 ≤ (E.pcre_exec (some re) (E.pcre_study re 0).1 gamma.name gamma.name.length 0 0
      MAX_SUBSTRINGS).1) := not_le.mpr hgamma
  have hsel : selection E (some "ta")
      (registerAll [alpha, beta, gamma] (UtState.init E ([] : List String))) = [beta] := by
    unfold selection
    rw [hreg, UtRegex_ok "ta" _ re hcomp hstudy]
    simp [List.filter_cons, selects, ha, hb, hg]
  have hrun := run_spec (E := E) (some "ta")
    (registerAll [alpha, beta, gamma] (UtState.init E ([] : List String)))
  rw [hsel, hreg, UtRegex_ok "ta" _ re hcomp hstudy] at hrun
  unfold UtRunTests
  rw [hreg, hrun]
  have e1 : failCount (callAll [beta] ([] : List String)) % UINT32_MOD = 1 := by decide
  have e2 : passCount (callAll [beta] ([] : List String)) % UINT32_MOD = 0 := by decide
  have e3 : worldAfter [beta] ([] : List String) = ["beta"] := by decide
  have e4 : "" ++ resultLines (callAll [beta] ([] : List String)) ++ UtRunTests.summary 0 1 =
      "Test beta                                                         : FAILED\n" ++
      "==== TEST RESULTS ====\nPASSED: 0\nFAILED: 1\n======================\n" := by decide
  simp only [e1, e2, e3, UtState.printf]
  rw [e4]

theorem C15_scenario_filter_ta_witness :
    (refPcre.pcre_compile "ta" 0 = Except.ok [RefItem.lit 't', RefItem.lit 'a'] ∧
      "ta".data <:+: "beta".data ∧ ¬ "ta".data <:+: "alpha".data ∧
      ¬ "ta".data <:+: "gamma".data) ∧
    UtRunTests refPcre (some "ta") (registerAll [alpha, beta, gamma] (UtState.init refPcre [])) =
      (1, { parse_regex := some [RefItem.lit 't', RefItem.lit 'a'], parse_regex_study := none,
            ut_list := [alpha, beta, gamma],
            stdout :=
              "Test beta                                                         : FAILED\n" ++
              "==== TEST RESULTS ====\nPASSED: 0\nFAILED: 1\n======================\n",
            world := ["beta"] }) :=
  ⟨⟨rfl, by decide, by decide, by decide⟩,
    C15_scenario_filter_ta refPcre [RefItem.lit 't', RefItem.lit 'a'] rfl rfl
      (by decide) (by decide) (by decide)⟩

end UtUnittest

namespace UtUnittest

variable {E : PcreLib} {σ : Type}

/-! ### The text of a run -/

theorem foldl_append_eq (l : List String) (acc : String) :
    List.foldl (fun r s => r ++ s) acc l = acc ++ List.foldl (fun r s => r ++ s) "" l := by
  induction l generalizing acc with
  | nil => simp
  | cons a l ih =>
    simp only [List.foldl_cons, String.empty_append]
    rw [ih (acc ++ a), ih a, String.append_assoc]

theorem resultLines_eq_join (os : List (UtTest σ × Int)) :
    resultLines os = String.join (os.map resultLine) := by
  induction os with
  | nil => rfl
  | cons o os ih =>
    unfold String.join at ih ⊢
    simp only [resultLines, List.map_cons, List.foldl_cons, String.empty_append]
    rw [foldl_append_eq, ih]

theorem fmt60_data (name : String) :
    (fmt60 name).data = name.data.take 60 ++ List.replicate (60 - name.length) ' ' := by
  unfold fmt60
  simp only [String.length, List.length_take]
  congr 2
  omega

theorem fmt60_length (name : String) : (fmt60 name).length = 60 := by
  show (fmt60 name).data.length = 60
  rw [fmt60_data]
  simp only [List.length_append, List.length_take, List.length_replicate, String.length]
  omega

theorem callAll_map_fst (ts : List (UtTest σ)) (w : σ) :
    (callAll ts w).map (fun o => o.1) = ts := by
  induction ts generalizing w with
  | nil => rfl
  | cons t ts ih => simp [callAll, ih]

set_option maxRecDepth 8000 in
/-- C16, as stated, fails for a filter that does not compile: run with the
filter `*` on the scenario registry, `UtRunTests` writes the compiler's
diagnostic before the three result lines and the summary, so the text is not
the result lines followed by the summary. -/
theorem C16_counterexample :
    (UtRunTests refPcre (some "*") scenario).2.stdout =
      "pcre compile of \"*\" failed at offset 0: nothing to repeat\n" ++
      ("Test alpha                                                        : pass\n" ++
       "Test beta                                                         : FAILED\n" ++
       "Test gamma                                                        : pass\n" ++
       "==== TEST RESULTS ====\nPASSED: 2\nFAILED: 1\n======================\n") ∧
    (UtRunTests refPcre (some "*") scenario).2.stdout ≠
      "Test alpha                                                        : pass\n" ++
      "Test beta                                                         : FAILED\n" ++
      "Test gamma                                                        : pass\n" ++
      "==== TEST RESULTS ====\nPASSED: 2\nFAILED: 1\n======================\n" :=
  ⟨by decide, by decide⟩

/-- C16, amended: for every registry and every filter, the text written
during `UtRunTests` is: the text `UtRegex` writes for the filter, which is
empty when the filter is absent and when it compiles; then, for each executed
test in execution order, the line made of `Test `, the name in a field of
exactly 60 characters (the first 60 characters of the name, then spaces up to
60), ` : `, `pass` or `FAILED`, and a newline; then, once, the four summary
lines with the two counters.  The summary is there also when no test is
selected and when the pattern is invalid. -/
theorem C16_run_output_format (E : PcreLib) (σ : Type) (regex_arg : Option String)
    (st : UtState E σ) :
    let os := callAll (selection E regex_arg st) st.world
    let s := UtRunTests.run E regex_arg st
    (UtRunTests E regex_arg st).2.stdout =
      st.stdout ++ UtRegex.diagnostic E regex_arg
        ++ String.join (os.map (fun o =>
            "Test " ++ fmt60 o.1.name ++ " : " ++ (if o.2 = o.1.evalue then "pass" else "FAILED")
              ++ "\n"))
        ++ ("==== TEST RESULTS ====\n" ++ ("PASSED: " ++ toString s.good ++ "\n")
          ++ ("FAILED: " ++ toString s.bad ++ "\n") ++ "======================\n") ∧
    UtRegex.diagnostic E none = "" ∧
    ((UtRegex E regex_arg st).1 = 1 → UtRegex.diagnostic E regex_arg = "") ∧
    os.map (fun o => o.1) = selection E regex_arg st ∧
    s.good = passCount os % 2 ^ 32 ∧
    s.bad = failCount os % 2 ^ 32 ∧
    (∀ name : String, (fmt60 name).length = 60 ∧
      (fmt60 name).data = name.data.take 60 ++ List.replicate (60 - name.length) ' ') := by
  intro os s
  have hs : s = UtRunTests.run E regex_arg st := rfl
  refine ⟨?_, rfl, UtRegex_diagnostic_of_ok regex_arg st, callAll_map_fst _ _, ?_, ?_,
    fun name => ⟨fmt60_length name, fmt60_data name⟩⟩
  · show ((UtRunTests.run E regex_arg st).st.printf _).stdout = _
    have hj := resultLines_eq_join os
    have hout : (UtRunTests.run E regex_arg st).st.stdout
        = st.stdout ++ UtRegex.diagnostic E regex_arg ++ resultLines os := by
      rw [run_spec, ← UtRegex_stdout]
    simp only [UtState.printf, hout, hj, UtRunTests.summary]
    rfl
  · rw [hs, run_spec]; rfl
  · rw [hs, run_spec]; rfl

theorem C16_run_output_format_witness :
    (UtRegex refPcre (some "x*") scenario).1 = 1 ∧
    UtRegex.diagnostic refPcre (some "x*") = "" ∧
    (fmt60 "beta").length = 60 :=
  ⟨by decide,
    (C16_run_output_format refPcre (List String) (some "x*") scenario).2.2.1 (by decide),
    ((C16_run_output_format refPcre (List String) (some "x*") scenario).2.2.2.2.2.2 "beta").1⟩

/-! ### The self tests -/

set_option maxRecDepth 8000 in
/-- C17, as stated, fails when an allocation fails: with the allocation of
the first descriptor failing, `UtRunSelftest` without filter runs
`UtRunTests` on a registry holding the descriptor `false` alone, and the
summary reports `PASSED: 1`, not 2. -/
theorem C17_counterexample :
    (UtRegisterTest true "false" UtSelftestFalse 0
      (UtRegisterTest false "true" UtSelftestTrue 1
        (UtInitialize ((UtState.init refPcre ([] : List String)).printf
          "* Running Unittesting subsystem selftests...\n")))).ut_list.map (fun t => t.name)
      = ["false"] ∧
    (UtRunTests.run refPcre none
      (UtRegisterTest true "false" UtSelftestFalse 0
        (UtRegisterTest false "true" UtSelftestTrue 1
          (UtInitialize ((UtState.init refPcre ([] : List String)).printf
            "* Running Unittesting subsystem selftests...\n"))))).good = 1 ∧
    (UtRunSelftest true false true refPcre none (UtState.init refPcre ([] : List String))).2.stdout
      = "* Running Unittesting subsystem selftests...\n" ++
        "ERROR: UtTest *ut = malloc(sizeof(UtTest)); failed\n" ++
        "Test false                                                        : pass\n" ++
        "==== TEST RESULTS ====\nPASSED: 1\nFAILED: 0\n======================\n" ++
        "* Done running Unittesting subsystem selftests...\n" :=
  ⟨by decide, by decide, by decide⟩

/-- C17, amended: with `UNITTESTS` defined, no filter, and the allocation
succeeding in both registrations, `UtRunSelftest` runs `UtRunTests` on a
registry holding exactly the descriptors `("true", UtSelftestTrue, 1)` and
`("false", UtSelftestFalse, 0)`; both pass: that run counts 2 passed and 0
failed, writes both lines with `pass` and the summary `PASSED: 2`,
`FAILED: 0`, and returns `0`.  `UtRunSelftest` returns `0` whatever its
arguments and whatever the outcome of the allocations. -/
theorem C17_selftest_passes (E : PcreLib) (σ : Type) (st : UtState E σ) :
    let st4 : UtState E σ := UtRegisterTest true "false" UtSelftestFalse 0
      (UtRegisterTest true "true" UtSelftestTrue 1
        (UtInitialize (st.printf "* Running Unittesting subsystem selftests...\n")))
    st4.ut_list = [{ name := "true", TestFn := UtSelftestTrue, evalue := 1 },
                   { name := "false", TestFn := UtSelftestFalse, evalue := 0 }] ∧
    (UtRunTests.run E none st4).good = 2 ∧
    (UtRunTests.run E none st4).bad = 0 ∧
    UtRunTests E none st4 = (0, { st4 with stdout := st4.stdout ++
      ("Test true                                                         : pass\n" ++
       "Test false                                                        : pass\n" ++
       "==== TEST RESULTS ====\nPASSED: 2\nFAILED: 0\n======================\n") }) ∧
    UtRunSelftest true true true E none st =
      (0, UtCleanup ((UtRunTests E none st4).2.printf
        "* Done running Unittesting subsystem selftests...\n")) ∧
    (∀ (u m1 m2 : Bool) (f : Option String), (UtRunSelftest u m1 m2 E f st).1 = 0) := by
  intro st4
  have hlist : st4.ut_list = [{ name := "true", TestFn := UtSelftestTrue, evalue := 1 },
      { name := "false", TestFn := UtSelftestFalse, evalue := 0 }] := rfl
  have hcall : callAll st4.ut_list st4.world =
      [({ name := "true", TestFn := UtSelftestTrue, evalue := 1 }, 1),
       ({ name := "false", TestFn := UtSelftestFalse, evalue := 0 }, 0)] := by
    rw [hlist]; rfl
  have hworld : worldAfter st4.ut_list st4.world = st4.world := by
    rw [hlist]; rfl
  have hrun := run_spec (E := E) none st4
  rw [selection_none, hcall, hworld] at hrun
  have e1 : passCount ([({ name := "true", TestFn := UtSelftestTrue, evalue := 1 }, 1),
       ({ name := "false", TestFn := UtSelftestFalse, evalue := 0 }, 0)]
       : List (UtTest σ × Int)) % UINT32_MOD = 2 := by
    simp [passCount, passes, UINT32_MOD]
  have e2 : failCount ([({ name := "true", TestFn := UtSelftestTrue, evalue := 1 }, 1),
       ({ name := "false", TestFn := UtSelftestFalse, evalue := 0 }, 0)]
       : List (UtTest σ × Int)) % UINT32_MOD = 0 := by
    simp [failCount, passes, UINT32_MOD]
  have e3 : resultLines ([({ name := "true", TestFn := UtSelftestTrue, evalue := 1 }, 1),
       ({ name := "false", TestFn := UtSelftestFalse, evalue := 0 }, 0)]
       : List (UtTest σ × Int)) =
      "Test true                                                         : pass\n" ++
      "Test false                                                        : pass\n" := by
    have f1 : fmt60 "true" = "true                                                        " := by
      decide
    have f2 : fmt60 "false" = "false                                                       " := by
      decide
    simp only [resultLines, resultLine, f1, f2, if_true, String.append_empty]
    decide
  rw [e1, e2, e3] at hrun
  have hres : UtRunTests E none st4 = (0, { st4 with stdout := st4.stdout ++
      ("Test true                                                         : pass\n" ++
       "Test false                                                        : pass\n" ++
       "==== TEST RESULTS ====\nPASSED: 2\nFAILED: 0\n======================\n") }) := by
    unfold UtRunTests
    rw [hrun]
    simp only [UtState.printf, UtRegex, String.append_assoc]
    rfl
  refine ⟨hlist, by rw [hrun], by rw [hrun], hres, ?_, ?_⟩
  · show UtRunSelftest true true true E none st = _
    unfold UtRunSelftest
    simp only [if_true]
    have h0 : (UtRunTests E none st4).1 = 0 := by rw [hres]
    simp [h0, st4]
  · intro u m1 m2 f
    unfold UtRunSelftest
    cases u <;> simp

/-- C18, as stated, fails: called on the registry holding `alpha`, `beta`
and `gamma`, `UtRunSelftest` returns with an empty registry. -/
theorem C18_counterexample :
    scenario.ut_list.map (fun t => t.name) = ["alpha", "beta", "gamma"] ∧
    (UtRunSelftest true true true refPcre none scenario).2.ut_list.map (fun t => t.name) = [] ∧
    (UtRunSelftest true true true refPcre none scenario).2.ut_list.length
      ≠ scenario.ut_list.length :=
  ⟨by decide, by decide, by decide⟩

/-- C18, amended: with `UNITTESTS` defined, `UtRunSelftest` returns with an
empty registry whatever the registry held before the call: neither self-test
descriptor is left, and the descriptors registered before the call are gone
too, dropped by `UtInitialize`.  Without `UNITTESTS` the state is left as it
was. -/
theorem C18_selftest_leaves_empty_registry (E : PcreLib) (σ : Type) (m1 m2 : Bool)
    (regex_arg : Option String) (st : UtState E σ) :
    (UtRunSelftest true m1 m2 E regex_arg st).2.ut_list = [] ∧
    (UtInitialize (st.printf "* Running Unittesting subsystem selftests...\n")).ut_list = [] ∧
    (UtRunSelftest false m1 m2 E regex_arg st).2 = st := by
  refine ⟨?_, rfl, rfl⟩
  unfold UtRunSelftest
  simp [UtCleanup]

end UtUnittest

namespace UtUnittest

variable {E : PcreLib} {σ : Type}

/-! ### The pattern statics across calls -/

theorem UtRegex_eq_one (regex_arg : Option String) (st : UtState E σ)
    (hc : (UtRegex E regex_arg st).1 = 1) :
    ∃ pat re, regex_arg = some pat ∧ E.pcre_compile pat 0 = Except.ok re ∧
      (E.pcre_study re 0).2 = none ∧
      (UtRegex E regex_arg st).2.parse_regex = some re ∧
      (UtRegex E regex_arg st).2.parse_regex_study = (E.pcre_study re 0).1 := by
  cases regex_arg with
  | none => simp [UtRegex] at hc
  | some pat =>
    cases hcomp : E.pcre_compile pat 0 with
    | error e =>
      obtain ⟨eb, eo⟩ := e
      rw [UtRegex_compile_error pat st eb eo hcomp] at hc
      simp at hc
    | ok re =>
      cases hs : (E.pcre_study re 0).2 with
      | some msg =>
        rw [UtRegex_study_error pat st re msg hcomp hs] at hc
        simp at hc
      | none =>
        refine ⟨pat, re, rfl, hcomp, hs, ?_, ?_⟩
        · rw [UtRegex_ok pat st re hcomp hs]
        · rw [UtRegex_ok pat st re hcomp hs]

theorem exec_statics (ut : UtTest σ) (s : RunLocals E σ) :
    (UtRunTests.exec ut s).st.parse_regex = s.st.parse_regex ∧
    (UtRunTests.exec ut s).st.parse_regex_study = s.st.parse_regex_study := by
  rw [exec_eq]
  exact ⟨rfl, rfl⟩

theorem run_execCalls_spec (rcomp : Int) (l : List (UtTest σ)) (s : RunLocals E σ)
    (p : ExecCall E) (hp : p ∈ UtRunTests.execCalls rcomp l s) :
    rcomp = 1 ∧ p.code = s.st.parse_regex ∧ p.extra = s.st.parse_regex_study := by
  induction l generalizing s with
  | nil => simp [UtRunTests.execCalls] at hp
  | cons ut next ih =>
    unfold UtRunTests.execCalls at hp
    by_cases hr : rcomp = 1
    · simp only [hr, if_true, List.mem_cons] at hp
      rcases hp with hp | hp
      · subst hp
        exact ⟨hr, rfl, rfl⟩
      · split at hp
        · have h := ih (UtRunTests.exec ut s) (by rw [hr]; exact hp)
          rw [(exec_statics ut s).1, (exec_statics ut s).2] at h
          exact h
        · exact ih s (by rw [hr]; exact hp)
    · simp only [hr, if_false] at hp
      exact absurd (ih _ hp).1 hr

theorem list_execCalls_spec (rcomp : Int) (l : List (UtTest σ)) (st : UtState E σ)
    (p : ExecCall E) (hp : p ∈ UtListTests.execCalls rcomp l st) :
    rcomp = 1 ∧ p.code = st.parse_regex ∧ p.extra = st.parse_regex_study := by
  induction l generalizing st with
  | nil => simp [UtListTests.execCalls] at hp
  | cons ut next ih =>
    unfold UtListTests.execCalls at hp
    by_cases hr : rcomp = 1
    · simp only [hr, if_true, List.mem_cons] at hp
      rcases hp with hp | hp
      · subst hp
        exact ⟨hr, rfl, rfl⟩
      · split at hp
        · exact ih (st.printf (ut.name ++ "\n")) (by rw [hr]; exact hp)
        · exact ih st (by rw [hr]; exact hp)
    · simp only [hr, if_false] at hp
      exact absurd (ih _ hp).1 hr

theorem call_execCalls_spec (c : UtCall) (st : UtState E σ) (p : ExecCall E)
    (hp : p ∈ c.execCalls E st) :
    (UtRegex E c.regex_arg st).1 = 1 ∧
    p.code = (UtRegex E c.regex_arg st).2.parse_regex ∧
    p.extra = (UtRegex E c.regex_arg st).2.parse_regex_study := by
  cases c with
  | list f => exact list_execCalls_spec _ _ _ p hp
  | run f => exact run_execCalls_spec _ _ _ p hp

/-- C19: in every sequence of calls of `UtListTests` and `UtRunTests`, from
every state of the statics, each call of `pcre_exec` is made during a call
whose filter is a pattern that `pcre_compile` and `pcre_study` accepted, and
is given the compiled pattern and the study data obtained from that very
filter.  A call for which `UtRegex` does not return `1`, its filter being
absent or not compiling, makes no call of `pcre_exec`, whatever an earlier
call left in the statics. -/
theorem C19_no_stale_pattern (E : PcreLib) (σ : Type) :
    (∀ (calls : List UtCall) (st : UtState E σ) (c : UtCall) (p : ExecCall E),
      (c, p) ∈ sessionExecCalls E calls st →
      ∃ pat re, c.regex_arg = some pat ∧ E.pcre_compile pat 0 = Except.ok re ∧
        (E.pcre_study re 0).2 = none ∧ p.code = some re ∧ p.extra = (E.pcre_study re 0).1) ∧
    (∀ (c : UtCall) (st : UtState E σ),
      (UtRegex E c.regex_arg st).1 ≠ 1 → c.execCalls E st = []) ∧
    (∀ (c : UtCall) (st : UtState E σ), c.regex_arg = none → c.execCalls E st = []) ∧
    (∀ (c : UtCall) (st : UtState E σ) (pat : String) (e : String × Int),
      c.regex_arg = some pat → E.pcre_compile pat 0 = Except.error e → c.execCalls E st = []) := by
  have hnil : ∀ (c : UtCall) (st : UtState E σ),
      (UtRegex E c.regex_arg st).1 ≠ 1 → c.execCalls E st = [] := by
    intro c st hne
    rw [List.eq_nil_iff_forall_not_mem]
    intro p hp
    exact hne (call_execCalls_spec c st p hp).1
  refine ⟨?_, hnil, ?_, ?_⟩
  · intro calls st c p hp
    have key : ∃ st1 : UtState E σ, p ∈ c.execCalls E st1 := by
      induction calls generalizing st with
      | nil => simp [sessionExecCalls] at hp
      | cons d ds ih =>
        simp only [sessionExecCalls, List.mem_append, List.mem_map] at hp
        rcases hp with ⟨q, hq, heq⟩ | hp
        · have h1 : d = c := congrArg Prod.fst heq
          have h2 : q = p := congrArg Prod.snd heq
          subst h1 h2
          exact ⟨st, hq⟩
        · exact ih _ hp
    obtain ⟨st1, h1⟩ := key
    have h2 := call_execCalls_spec c st1 p h1
    obtain ⟨pat, re, hf, hcomp, hs, hre, hex⟩ := UtRegex_eq_one c.regex_arg st1 h2.1
    exact ⟨pat, re, hf, hcomp, hs, by rw [h2.2.1, hre], by rw [h2.2.2, hex]⟩
  · intro c st hf
    apply hnil
    rw [hf]
    simp [UtRegex]
  · intro c st pat e hf hcomp
    apply hnil
    obtain ⟨eb, eo⟩ := e
    rw [hf, UtRegex_compile_error pat st eb eo hcomp]
    simp

theorem C19_no_stale_pattern_witness :
    (UtCall.run (some "ta"),
        ({ code := some [RefItem.lit 't', RefItem.lit 'a'], extra := none, subject := "beta" }
          : ExecCall refPcre)) ∈
      sessionExecCalls refPcre
        [UtCall.run (some "x*"), UtCall.list none, UtCall.run (some "*"), UtCall.run (some "ta")]
        scenario ∧
    (∃ pat re, UtCall.regex_arg (UtCall.run (some "ta")) = some pat ∧
      refPcre.pcre_compile pat 0 = Except.ok re ∧ (refPcre.pcre_study re 0).2 = none ∧
      (some [RefItem.lit 't', RefItem.lit 'a'] : Option refPcre.pcre) = some re ∧
      (none : Option refPcre.pcre_extra) = (refPcre.pcre_study re 0).1) ∧
    (UtRegex refPcre (UtCall.regex_arg (UtCall.run (some "*")))
        (UtCall.perform refPcre (UtCall.run (some "x*")) scenario)).1 ≠ 1 ∧
    (UtCall.perform refPcre (UtCall.run (some "x*")) scenario).parse_regex.isSome = true ∧
    UtCall.execCalls refPcre (UtCall.run (some "*"))
      (UtCall.perform refPcre (UtCall.run (some "x*")) scenario) = [] :=
  ⟨by decide,
    (C19_no_stale_pattern refPcre (List String)).1
      [UtCall.run (some "x*"), UtCall.list none, UtCall.run (some "*"), UtCall.run (some "ta")]
      scenario (UtCall.run (some "ta"))
      { code := some [RefItem.lit 't', RefItem.lit 'a'], extra := none, subject := "beta" }
      (by decide),
    by decide, by decide,
    (C19_no_stale_pattern refPcre (List String)).2.1 (UtCall.run (some "*"))
      (UtCall.perform refPcre (UtCall.run (some "x*")) scenario) (by decide)⟩

/-! ### Allocation failure -/

theorem UtRegex_printf (regex_arg : Option String) (st : UtState E σ) (x : String) :
    (UtRegex E regex_arg (st.printf x)).1 = (UtRegex E regex_arg st).1 ∧
    (UtRegex E regex_arg (st.printf x)).2.parse_regex = (UtRegex E regex_arg st).2.parse_regex ∧
    (UtRegex E regex_arg (st.printf x)).2.parse_regex_study
      = (UtRegex E regex_arg st).2.parse_regex_study := by
  unfold UtRegex
  cases regex_arg with
  | none => exact ⟨rfl, rfl, rfl⟩
  | some arg =>
    dsimp only
    cases hcomp : E.pcre_compile arg 0 with
    | error e => exact ⟨rfl, rfl, rfl⟩
    | ok re =>
      dsimp only
      cases hs : (E.pcre_study re 0).2 with
      | some msg => exact ⟨rfl, rfl, rfl⟩
      | none => exact ⟨rfl, rfl, rfl⟩

theorem selection_printf (regex_arg : Option String) (st : UtState E σ) (x : String) :
    selection E regex_arg (st.printf x) = selection E regex_arg st := by
  unfold selection
  have h := UtRegex_printf regex_arg st x
  simp only [h.1, h.2.1, h.2.2]
  rfl

/-- C20: when the allocation fails, `UtRegisterTest` returns having written
its diagnostic and nothing else: the registry holds the same descriptors in
the same order, and the rest of the state is as before.  A later `UtRunTests`,
with any filter, selects the same tests as without the failed call, calls the
same bodies, counts the same passed and failed tests and returns the same
value. -/
theorem C20_failed_allocation_drops_test (E : PcreLib) (σ : Type) (name : String)
    (fn : σ → Int × σ) (ev : Int) (regex_arg : Option String) (st : UtState E σ) :
    let st2 := UtRegisterTest false name fn ev st
    st2 = { st with
      stdout := st.stdout ++ "ERROR: UtTest *ut = malloc(sizeof(UtTest)); failed\n" } ∧
    st2.ut_list = st.ut_list ∧
    st2.ut_list.length = st.ut_list.length ∧
    selection E regex_arg st2 = selection E regex_arg st ∧
    (UtRunTests E regex_arg st2).1 = (UtRunTests E regex_arg st).1 ∧
    (UtRunTests.run E regex_arg st2).good = (UtRunTests.run E regex_arg st).good ∧
    (UtRunTests.run E regex_arg st2).bad = (UtRunTests.run E regex_arg st).bad ∧
    (UtRunTests E regex_arg st2).2.world = (UtRunTests E regex_arg st).2.world ∧
    (UtRunTests E regex_arg st2).2.world = worldAfter (selection E regex_arg st) st.world ∧
    (UtRunTests E regex_arg st2).2.ut_list = st.ut_list := by
  intro st2
  have h2 : st2 = st.printf "ERROR: UtTest *ut = malloc(sizeof(UtTest)); failed\n" := rfl
  have hsel : selection E regex_arg st2 = selection E regex_arg st := by
    rw [h2]; exact selection_printf regex_arg st _
  have hw : st2.world = st.world := by rw [h2]; rfl
  have hr2 := run_spec (E := E) regex_arg st2
  have hr := run_spec (E := E) regex_arg st
  rw [hsel, hw] at hr2
  refine ⟨h2, by rw [h2]; rfl, by rw [h2]; rfl, hsel, ?_, ?_, ?_, ?_, ?_, ?_⟩
  · show (UtRunTests.run E regex_arg st2).bad = (UtRunTests.run E regex_arg st).bad
    rw [hr2, hr]
  · rw [hr2, hr]
  · rw [hr2, hr]
  · show (UtRunTests.run E regex_arg st2).st.world = (UtRunTests.run E regex_arg st).st.world
    rw [hr2, hr]
  · show (UtRunTests.run E regex_arg st2).st.world = _
    rw [hr2]
  · show (UtRunTests.run E regex_arg st2).st.ut_list = _
    rw [hr2]
    show (UtRegex E regex_arg st2).2.ut_list = _
    rw [UtRegex_ut_list, h2]
    rfl

end UtUnittest
